import Mathlib

/-
  Verification of the relocatable snap corpus generator
  (snap/gen/relocatable_snap_generator.cc).

  The development shallowly embeds the two-pass layout-and-emit engine of
  `Traversal<Arch>`: data blocks are bump allocators carrying only the
  layout-relevant fields (size, required alignment); references are
  (block, offset) pairs; the dedup tables are association lists keyed by
  payload byte content; fatal CHECK/DCHECK assertions become `Except`
  errors.  Content buffers and numeric load addresses are not modelled at
  the byte level: they are write-only with respect to all layout
  decisions (every pointer stored in the image is a function of a Ref).
  A ghost event log records every allocation and every deduplicated
  payload lookup, in program order, so that two-pass equality and the
  dedup invariants can be stated over whole runs.
-/

namespace Silifuzz

/-- Identifiers of the data blocks maintained by a `Traversal`:
the main block plus the eight sub-blocks merged into it. -/
inductive BlockId where
  | snapBlock
  | memoryBytesBlock
  | memoryMappingBlock
  | byteDataBlock
  | stringBlock
  | fpregsBlock
  | gregsBlock
  | pageDataBlock
  | mainBlock
deriving DecidableEq, Repr

/-- A `RelocatableDataBlock::Ref`: an (owner block, byte offset) pair.
Load addresses are derived (`block.load_address + offset`) and are not
part of the layout state, so a Ref is fully identified by this pair. -/
structure Ref where
  block : BlockId
  offset : Nat
deriving DecidableEq, Repr

/-- Ref arithmetic `ref + k`: same block, offset advanced by `k`. -/
def Ref.add (r : Ref) (k : Nat) : Ref := ⟨r.block, r.offset + k⟩

/-- Round `n` up to the next multiple of `a` (identity when `a = 0`).
This is the `RoundUpTo` used by `RelocatableDataBlock::Allocate`. -/
def alignUp (n a : Nat) : Nat := if a = 0 then n else ((n + a - 1) / a) * a

/-- Modelled from the spec: `RelocatableDataBlock` (relocatable_data_block.h
is not among the provided sources).  Per spec §4.1 the layout-relevant
fields of the arena are its current `size` and `required_alignment`;
`contents_ptr` and `load_address` never influence layout decisions and
are omitted. -/
structure RelocatableDataBlock where
  size : Nat
  requiredAlignment : Nat
deriving DecidableEq, Repr

/-- Modelled from the spec: `RelocatableDataBlock::Allocate(size, alignment)`
aligns the current offset, bumps `size`, and records
`required_alignment = max(old, alignment)` (spec §3, §4.1).
Returns the new block together with the offset of the allocation. -/
def RelocatableDataBlock.allocate (b : RelocatableDataBlock) (sz al : Nat) :
    RelocatableDataBlock × Nat :=
  let off := alignUp b.size al
  (⟨off + sz, max b.requiredAlignment al⟩, off)

/-- Modelled from the spec: `reset_size_and_alignment()` zeroes the size,
resets the alignment to 1 and preserves contents/load address (§4.1). -/
def RelocatableDataBlock.resetSizeAndAlignment (_b : RelocatableDataBlock) :
    RelocatableDataBlock :=
  ⟨0, 1⟩

/-- Serialized byte data (`Snapshot::ByteData`): a list of byte values. -/
abbrev ByteData := List Nat

/-- A dedup table (`DedupedRefMap`): content-keyed map from payload bytes
to the previously assigned Ref.  The C++ table hashes through the key
pointer to the pointed-to bytes, so equality is byte-content equality;
an association list with content lookup models it. -/
abbrev DedupedRefMap := List (ByteData × Ref)

/-- Content-keyed lookup in a dedup table. -/
def lookupRef : DedupedRefMap → ByteData → Option Ref
  | [], _ => none
  | (k, r) :: t, b => if k = b then some r else lookupRef t b

/-- The two register kinds processed by `ProcessRegisterSet`; each kind
has its own data block and its own dedup table. -/
inductive RegKind where
  | gregs
  | fpregs
deriving DecidableEq, Repr

/-- The data block used for a register kind (`gregs_block_` / `fpregs_block_`). -/
def regBlockId : RegKind → BlockId
  | .gregs => .gregsBlock
  | .fpregs => .fpregsBlock

/-- Ghost event log entries.  `alloc` records a sub-block allocation
(`Allocate(size, alignment)` returning `offset`); `merge` records the
merging of a sub-block into the main block at the end of `Process`;
`mbPayload` / `regPayload` record each deduplicated payload lookup with
the Ref it resolved to (on hits and misses alike). -/
inductive Event where
  | alloc (into : BlockId) (size align offset : Nat)
  | merge (sub : BlockId) (size align offset : Nat)
  | mbPayload (bytes : ByteData) (r : Ref)
  | regPayload (kind : RegKind) (bytes : ByteData) (r : Ref)
deriving DecidableEq, Repr

/-- Layout-relevant state of a `Traversal`: the nine data blocks and the
three dedup tables.  (Logs are threaded through return values, not state.) -/
structure TState where
  snapBlock : RelocatableDataBlock
  memoryBytesBlock : RelocatableDataBlock
  memoryMappingBlock : RelocatableDataBlock
  byteDataBlock : RelocatableDataBlock
  stringBlock : RelocatableDataBlock
  fpregsBlock : RelocatableDataBlock
  gregsBlock : RelocatableDataBlock
  pageDataBlock : RelocatableDataBlock
  mainBlock : RelocatableDataBlock
  byteDataRefMap : DedupedRefMap
  fpregsRefMap : DedupedRefMap
  gregsRefMap : DedupedRefMap
deriving DecidableEq, Repr

/-- Read a data block of the traversal state by its id. -/
def TState.get (s : TState) : BlockId → RelocatableDataBlock
  | .snapBlock => s.snapBlock
  | .memoryBytesBlock => s.memoryBytesBlock
  | .memoryMappingBlock => s.memoryMappingBlock
  | .byteDataBlock => s.byteDataBlock
  | .stringBlock => s.stringBlock
  | .fpregsBlock => s.fpregsBlock
  | .gregsBlock => s.gregsBlock
  | .pageDataBlock => s.pageDataBlock
  | .mainBlock => s.mainBlock

/-- Replace a data block of the traversal state by its id. -/
def TState.set (s : TState) (b : BlockId) (v : RelocatableDataBlock) : TState :=
  match b with
  | .snapBlock => { s with snapBlock := v }
  | .memoryBytesBlock => { s with memoryBytesBlock := v }
  | .memoryMappingBlock => { s with memoryMappingBlock := v }
  | .byteDataBlock => { s with byteDataBlock := v }
  | .stringBlock => { s with stringBlock := v }
  | .fpregsBlock => { s with fpregsBlock := v }
  | .gregsBlock => { s with gregsBlock := v }
  | .pageDataBlock => { s with pageDataBlock := v }
  | .mainBlock => { s with mainBlock := v }

/-- Allocate `sz` bytes with alignment `al` in block `b`, returning the
new state, the resulting Ref and the ghost allocation event. -/
def TState.allocIn (s : TState) (b : BlockId) (sz al : Nat) :
    TState × Ref × Event :=
  let (blk, off) := (s.get b).allocate sz al
  (s.set b blk, ⟨b, off⟩, .alloc b sz al off)

/-- The dedup table of a register kind (`gregs_ref_map_` / `fpregs_ref_map_`). -/
def TState.regMap (s : TState) : RegKind → DedupedRefMap
  | .gregs => s.gregsRefMap
  | .fpregs => s.fpregsRefMap

/-- Insert a binding into the byte-data dedup table. -/
def TState.insertByteData (s : TState) (k : ByteData) (r : Ref) : TState :=
  { s with byteDataRefMap := (k, r) :: s.byteDataRefMap }

/-- Insert a binding into the dedup table of a register kind. -/
def TState.insertReg (s : TState) (kind : RegKind) (k : ByteData) (r : Ref) :
    TState :=
  match kind with
  | .gregs => { s with gregsRefMap := (k, r) :: s.gregsRefMap }
  | .fpregs => { s with fpregsRefMap := (k, r) :: s.fpregsRefMap }

/-- The initial traversal state: every block empty with alignment 1,
every dedup table empty. -/
def initState : TState :=
  ⟨⟨0, 1⟩, ⟨0, 1⟩, ⟨0, 1⟩, ⟨0, 1⟩, ⟨0, 1⟩, ⟨0, 1⟩, ⟨0, 1⟩, ⟨0, 1⟩, ⟨0, 1⟩,
   [], [], []⟩

/-- The runner page size, a compile-time constant (page_util.h is not
among the provided sources; spec §4.4 calls it "the runner page size
(a compile-time constant)", and the concrete scenarios use 0x1000). -/
def kPageSize : Nat := 4096

/-- Modelled from the spec: `IsPageAligned` (page_util.h is not among the
provided sources) — a value is page aligned iff it is a multiple of the
runner page size (spec §4.4). -/
def isPageAligned (n : Nat) : Bool := n % kPageSize = 0

/-- Modelled from the spec: `IsRepeatingByteRun` (repeating_byte_runs.h is
not among the provided sources) — a payload is repeating iff all of its
bytes are equal (spec §4.4, glossary).  An empty payload is not a
repeating run: the emit path reads `byte_values()[0]`. -/
def isRepeatingByteRun : ByteData → Bool
  | [] => false
  | b :: t => t.all (fun x => x = b)

/-- A `Snapshot::MemoryBytes` record: a start address plus byte values. -/
structure MemoryBytes where
  startAddress : Nat
  byteValues : ByteData
deriving DecidableEq, Repr

/-- `MemoryBytes::num_bytes()`: the length of the byte values. -/
def MemoryBytes.numBytes (mb : MemoryBytes) : Nat := mb.byteValues.length

/-- A `Snapshot::MemoryMapping`: start address, size and permissions
(permissions kept abstract as the `ToMProtect()` numeric value). -/
structure MemoryMapping where
  startAddress : Nat
  numBytes : Nat
  perms : Nat
deriving DecidableEq, Repr

/-- A `Snapshot::RegisterState`: the pair of serialized register payloads. -/
structure RegisterState where
  gregs : ByteData
  fpregs : ByteData
deriving DecidableEq, Repr

/-- A `Snapshot::EndState`: endpoint instruction address, its register
state, its memory bytes, and the serialized register-checksum blob. -/
structure EndState where
  instructionAddress : Nat
  registers : RegisterState
  memoryBytes : List MemoryBytes
  registerChecksum : ByteData
deriving DecidableEq, Repr

/-- The input `Snapshot` record (spec §3 data model). -/
structure Snapshot where
  architectureId : Nat
  id : ByteData
  memoryMappings : List MemoryMapping
  memoryBytes : List MemoryBytes
  registers : RegisterState
  expectedEndStates : List EndState
deriving DecidableEq, Repr

/-- Modelled from the spec: `SplitBytesByMapping` (snapshot_util.h is not
among the provided sources) returns, for each mapping in order, the
sub-list of memory-bytes records lying entirely inside it, preserving
declared order (spec §6). -/
def splitBytesByMapping (mappings : List MemoryMapping)
    (memoryBytes : List MemoryBytes) : List (List MemoryBytes) :=
  mappings.map fun m =>
    memoryBytes.filter fun mb =>
      m.startAddress ≤ mb.startAddress &&
      mb.startAddress + mb.numBytes ≤ m.startAddress + m.numBytes

/-- The `SnapMemoryBytes::kRepeating` flag bit. -/
def kRepeating : Nat := 1

/-- The union inside an emitted `SnapMemoryBytes`: either a repeating
byte run `(value, size)` or a `(size, elements)` byte array descriptor.
The elements pointer is kept as the Ref it is materialized from. -/
inductive SnapMBData where
  | byteRun (value size : Nat)
  | byteValues (size : Nat) (elements : Ref)
deriving DecidableEq, Repr

/-- An emitted `SnapMemoryBytes` record. -/
structure SnapMemoryBytesRec where
  startAddress : Nat
  flags : Nat
  data : SnapMBData
deriving DecidableEq, Repr

/-- An emitted `SnapMemoryMapping` record; `memoryChecksum` is the 64-bit
content hash of all bytes belonging to the mapping, in order. -/
structure SnapMemoryMappingRec where
  startAddress : Nat
  numBytes : Nat
  perms : Nat
  memoryChecksum : Nat
  memoryBytesSize : Nat
  memoryBytesElements : Ref
deriving DecidableEq, Repr

/-- The pair of Refs for the two components of a processed register state
(`Traversal::RegisterStateRefs`). -/
structure RegisterStateRefs where
  fpregs : Ref
  gregs : Ref
deriving DecidableEq, Repr

/-- An emitted `Snap` record; pointer fields are kept as the Refs they
are materialized from. -/
structure SnapRec where
  id : Ref
  memoryMappingsSize : Nat
  memoryMappingsElements : Ref
  registers : RegisterStateRefs
  endStateInstructionAddress : Nat
  endStateRegisters : RegisterStateRefs
  endStateMemoryBytesSize : Nat
  endStateMemoryBytesElements : Ref
  endStateRegisterChecksum : ByteData
  registersMemoryChecksum : Nat
  endStateRegistersMemoryChecksum : Nat
deriving DecidableEq, Repr

/-- Modelled from the spec: the `SnapCorpusHeader` fields (snap.h is not
among the provided sources; field list per spec §3). -/
structure SnapCorpusHeader where
  magic : Nat
  headerSize : Nat
  checksum : Nat
  numBytes : Nat
  corpusTypeSize : Nat
  snapTypeSize : Nat
  registerStateTypeSize : Nat
  architectureId : Nat
deriving DecidableEq, Repr

/-- The structured contents of the emitted corpus buffer: the emitted
Snap records in order plus the const-pointer array elements
(`element[i] = address_of(Snap[i])`, kept as Refs). -/
structure CorpusBody where
  snaps : List SnapRec
  snapPtrs : List Ref
deriving DecidableEq, Repr

/-- The emitted corpus image, viewed structurally: the `SnapCorpus`
header, the snap-array descriptor, and the body written behind them. -/
structure CorpusImage where
  header : SnapCorpusHeader
  snapsSize : Nat
  snapsElements : Ref
  body : CorpusBody
deriving DecidableEq, Repr

/-- How the generation pass filled a freshly allocated register slot:
deserialized from the payload, or zero-filled (memset) for an admitted
empty payload. -/
inductive RegWrite where
  | deserialized
  | zeroFill
deriving DecidableEq, Repr

/-- Architecture- and environment-supplied parameters: the type sizes
and alignments fixed by the `Arch` template argument, the caller-supplied
deserializers (reduced to their success predicates — their output values
never influence layout or control flow beyond success), and the checksum
functions (snap_checksum.h is external; spec §4.7 requires only a fixed
deterministic 64-bit hash).  `regMemChecksum` takes the two serialized
payloads: the structures it hashes are a deterministic image of them
(equal serialized bytes deserialize equally; empty payloads zero-fill). -/
structure ArchSpec where
  archId : Nat
  corpusTypeSize : Nat
  corpusTypeAlign : Nat
  snapTypeSize : Nat
  snapTypeAlign : Nat
  ptrSize : Nat
  ptrAlign : Nat
  mappingTypeSize : Nat
  mappingTypeAlign : Nat
  memoryBytesTypeSize : Nat
  memoryBytesTypeAlign : Nat
  gregsTypeSize : Nat
  gregsTypeAlign : Nat
  fpregsTypeSize : Nat
  fpregsTypeAlign : Nat
  headerSize : Nat
  registerStateTypeSize : Nat
  magic : Nat
  deserializeGRegsOk : ByteData → Bool
  deserializeFPRegsOk : ByteData → Bool
  deserializeRegisterChecksumOk : ByteData → Bool
  hashBytes : ByteData → Nat
  regMemChecksum : ByteData → ByteData → Nat
  corpusHash : CorpusImage → Nat

/-- The register-structure size of a kind (`sizeof(GRegSet/FPRegSet)`). -/
def ArchSpec.regSize (A : ArchSpec) : RegKind → Nat
  | .gregs => A.gregsTypeSize
  | .fpregs => A.fpregsTypeSize

/-- The register-structure alignment of a kind. -/
def ArchSpec.regAlign (A : ArchSpec) : RegKind → Nat
  | .gregs => A.gregsTypeAlign
  | .fpregs => A.fpregsTypeAlign

/-- The deserialization success predicate of a kind
(`DeserializeGRegs` / `DeserializeFPRegs`). -/
def ArchSpec.deserOk (A : ArchSpec) : RegKind → ByteData → Bool
  | .gregs => A.deserializeGRegsOk
  | .fpregs => A.deserializeFPRegsOk

/-- `RelocatableSnapGeneratorOptions` (the `counters` out-parameter is
returned, not stored). -/
structure GenOptions where
  compressRepeatingBytes : Bool
deriving DecidableEq, Repr

/-- The two passes of the generator (`Traversal::PassType`). -/
inductive PassType where
  | layout
  | generation
deriving DecidableEq, Repr

/-- Fatal assertion outcomes (CHECK / DCHECK failures) of the engine. -/
inductive Err where
  | archMismatch
  | notOneEndState
  | deserializeFailed
  | emptyNotAllowed
  | registerChecksumBad
  | alignmentTooLarge
  | internalError
deriving DecidableEq, Repr

/-- `Traversal::ProcessMemoryBytes`: dedup lookup of the byte payload;
on a miss route page-aligned page-sized data to `page_data_block_` with
page alignment, everything else to `byte_data_block_` with 8-byte
(`sizeof(uint64_t)`) alignment, and record the new binding.  The
generation-pass memcpy writes contents only; the debug-build memcmp
DCHECK compares stored contents with the (equal) incoming payload and
cannot fail, so neither appears in the layout-relevant result. -/
def processMemoryBytes (_pass : PassType) (mb : MemoryBytes) (s : TState) :
    TState × Ref × List Event :=
  match lookupRef s.byteDataRefMap mb.byteValues with
  | some r => (s, r, [.mbPayload mb.byteValues r])
  | none =>
    if isPageAligned mb.startAddress && isPageAligned mb.numBytes then
      let (s₁, r, e) := s.allocIn .pageDataBlock mb.byteValues.length kPageSize
      (s₁.insertByteData mb.byteValues r, r, [e, .mbPayload mb.byteValues r])
    else
      let (s₁, r, e) := s.allocIn .byteDataBlock mb.byteValues.length 8
      (s₁.insertByteData mb.byteValues r, r, [e, .mbPayload mb.byteValues r])

/-- `Traversal::ProcessAllocated` (MemoryBytes overload): if compression
is enabled and the payload is a repeating byte run, emit the record
inline with the `kRepeating` flag and allocate nothing; otherwise
allocate/dedup the payload via `processMemoryBytes` and emit a normal
record whose elements pointer is the payload's Ref.  The emitted record
is returned in the generation pass (`none` in the layout pass); `_mbRef`
is the pre-allocated slot the record is written to. -/
def processAllocatedMemoryBytes (opts : GenOptions) (pass : PassType)
    (mb : MemoryBytes) (_mbRef : Ref) (s : TState) :
    TState × List Event × Option SnapMemoryBytesRec :=
  if opts.compressRepeatingBytes && isRepeatingByteRun mb.byteValues then
    (s, [],
      if pass = .generation then
        some ⟨mb.startAddress, kRepeating,
          .byteRun (mb.byteValues.headD 0) mb.numBytes⟩
      else none)
  else
    let (s₁, r, L) := processMemoryBytes pass mb s
    (s₁, L,
      if pass = .generation then
        some ⟨mb.startAddress, 0, .byteValues mb.numBytes r⟩
      else none)

/-- The loop of `Traversal::ProcessMemoryBytesList`: process each record
with its pre-allocated slot, advancing by `sizeof(SnapMemoryBytes)`. -/
def processMemoryBytesListLoop (A : ArchSpec) (opts : GenOptions)
    (pass : PassType) (l : List MemoryBytes) (elemRef : Ref) (s : TState) :
    TState × List Event × List (Option SnapMemoryBytesRec) :=
  match l with
  | [] => (s, [], [])
  | mb :: t =>
    let (s₁, L₁, rec) := processAllocatedMemoryBytes opts pass mb elemRef s
    let (s₂, L₂, recs) :=
      processMemoryBytesListLoop A opts pass t
        (elemRef.add A.memoryBytesTypeSize) s₁
    (s₂, L₁ ++ L₂, rec :: recs)

/-- `Traversal::ProcessMemoryBytesList`: allocate the
`SnapArray<SnapMemoryBytes>` elements in `memory_bytes_block_`, then
process each record into its slot. -/
def processMemoryBytesList (A : ArchSpec) (opts : GenOptions)
    (pass : PassType) (l : List MemoryBytes) (s : TState) :
    TState × Ref × List Event × List (Option SnapMemoryBytesRec) :=
  let (s₁, ref, e) :=
    s.allocIn .memoryBytesBlock (l.length * A.memoryBytesTypeSize)
      A.memoryBytesTypeAlign
  let (s₂, L, recs) := processMemoryBytesListLoop A opts pass l ref s₁
  (s₂, ref, e :: L, recs)

/-- `Traversal::ProcessMemoryMapping`: process the mapping's memory-bytes
list, and in the generation pass emit the `SnapMemoryMapping` record with
the streaming checksum over all byte values belonging to the mapping in
order (a function of their concatenation). -/
def processMemoryMapping (A : ArchSpec) (opts : GenOptions) (pass : PassType)
    (m : MemoryMapping) (mbl : List MemoryBytes) (_mmRef : Ref) (s : TState) :
    TState × List Event × Option SnapMemoryMappingRec :=
  let (s₁, elemsRef, L, _) := processMemoryBytesList A opts pass mbl s
  (s₁, L,
    if pass = .generation then
      some ⟨m.startAddress, m.numBytes, m.perms,
        A.hashBytes ((mbl.map MemoryBytes.byteValues).flatten),
        mbl.length, elemsRef⟩
    else none)

/-- The loop of `Traversal::ProcessMemoryMappings` over
`(memory_mappings[i], bytes_per_mapping[i])` pairs. -/
def processMemoryMappingsLoop (A : ArchSpec) (opts : GenOptions)
    (pass : PassType) (l : List (MemoryMapping × List MemoryBytes))
    (mmRef : Ref) (s : TState) :
    TState × List Event × List (Option SnapMemoryMappingRec) :=
  match l with
  | [] => (s, [], [])
  | (m, mbl) :: t =>
    let (s₁, L₁, rec) := processMemoryMapping A opts pass m mbl mmRef s
    let (s₂, L₂, recs) :=
      processMemoryMappingsLoop A opts pass t
        (mmRef.add A.mappingTypeSize) s₁
    (s₂, L₁ ++ L₂, rec :: recs)

/-- `Traversal::ProcessMemoryMappings`: allocate the
`SnapArray<SnapMemoryMapping>` elements in `memory_mapping_block_`, then
process each mapping with its borrowed memory-bytes list. -/
def processMemoryMappings (A : ArchSpec) (opts : GenOptions) (pass : PassType)
    (mappings : List MemoryMapping) (bytesPerMapping : List (List MemoryBytes))
    (s : TState) :
    TState × Ref × List Event × List (Option SnapMemoryMappingRec) :=
  let (s₁, ref, e) :=
    s.allocIn .memoryMappingBlock (mappings.length * A.mappingTypeSize)
      A.mappingTypeAlign
  let (s₂, L, recs) :=
    processMemoryMappingsLoop A opts pass (mappings.zip bytesPerMapping) ref s₁
  (s₂, ref, e :: L, recs)

/-- `Traversal::ProcessRegisterSet`: dedup lookup of the serialized
payload in the kind's table; a hit returns the cached Ref with no other
action.  A miss allocates one register structure in the kind's block and,
in the generation pass only, runs the fatal checks: a nonempty payload
must deserialize (`CHECK(DeserializeRegs(...))`), an empty payload is
admitted only when `allow_empty_register_state` holds
(`CHECK(allow_empty_register_state)`, then memset to zero). -/
def processRegisterSet (A : ArchSpec) (pass : PassType) (kind : RegKind)
    (bytes : ByteData) (allowEmpty : Bool) (s : TState) :
    Except Err (TState × Ref × List Event × Option RegWrite) :=
  match lookupRef (s.regMap kind) bytes with
  | some r => .ok (s, r, [.regPayload kind bytes r], none)
  | none =>
    let (s₁, r, e) :=
      s.allocIn (regBlockId kind) (A.regSize kind) (A.regAlign kind)
    let s₂ := s₁.insertReg kind bytes r
    let L := [e, .regPayload kind bytes r]
    if pass = .generation then
      match bytes with
      | [] =>
        if allowEmpty then .ok (s₂, r, L, some .zeroFill)
        else .error .emptyNotAllowed
      | b :: t =>
        if A.deserOk kind (b :: t) then .ok (s₂, r, L, some .deserialized)
        else .error .deserializeFailed
    else .ok (s₂, r, L, none)

/-- `Traversal::ProcessRegisterState`: process the gregs payload, then
the fpregs payload; in the generation pass also compute the
register-memory checksum of the (deterministic) deserialized pair. -/
def processRegisterState (A : ArchSpec) (pass : PassType)
    (rs : RegisterState) (allowEmpty : Bool) (s : TState) :
    Except Err (TState × RegisterStateRefs × List Event × Option Nat) :=
  match processRegisterSet A pass .gregs rs.gregs allowEmpty s with
  | .error e => .error e
  | .ok (s₁, gr, L₁, _) =>
    match processRegisterSet A pass .fpregs rs.fpregs allowEmpty s₁ with
    | .error e => .error e
    | .ok (s₂, fr, L₂, _) =>
      .ok (s₂, ⟨fr, gr⟩, L₁ ++ L₂,
        if pass = .generation then some (A.regMemChecksum rs.gregs rs.fpregs)
        else none)

/-- `Traversal::ProcessAllocated` (Snapshot overload): assert the
architecture matches (CHECK_EQ), allocate the NUL-terminated id copy in
`string_block_`, process the mappings with their split memory bytes,
require exactly one expected end state (DCHECK_EQ, fatal in debug
builds), process the end state's memory bytes, the start registers
(empty forbidden) and the end-state registers (empty allowed), and in
the generation pass require the end-state register-checksum blob to
deserialize (CHECK_OK) before emitting the `Snap` record. -/
def processAllocatedSnapshot (A : ArchSpec) (opts : GenOptions)
    (pass : PassType) (snap : Snapshot) (_snapRef : Ref) (s : TState) :
    Except Err (TState × List Event × Option SnapRec) :=
  if snap.architectureId ≠ A.archId then .error .archMismatch
  else
    let (s₁, idRef, eId) := s.allocIn .stringBlock (snap.id.length + 1) 1
    let bpm := splitBytesByMapping snap.memoryMappings snap.memoryBytes
    let (s₂, mmElemsRef, L₂, _) :=
      processMemoryMappings A opts pass snap.memoryMappings bpm s₁
    match snap.expectedEndStates with
    | [endState] =>
      let (s₃, esMBRef, L₃, _) :=
        processMemoryBytesList A opts pass endState.memoryBytes s₂
      match processRegisterState A pass snap.registers false s₃ with
      | .error e => .error e
      | .ok (s₄, regRefs, L₄, rmc) =>
        match processRegisterState A pass endState.registers true s₄ with
        | .error e => .error e
        | .ok (s₅, esRegRefs, L₅, esrmc) =>
          if pass = .generation then
            if A.deserializeRegisterChecksumOk endState.registerChecksum then
              .ok (s₅, eId :: L₂ ++ L₃ ++ L₄ ++ L₅,
                some ⟨idRef, snap.memoryMappings.length, mmElemsRef, regRefs,
                  endState.instructionAddress, esRegRefs,
                  endState.memoryBytes.length, esMBRef,
                  endState.registerChecksum, rmc.getD 0, esrmc.getD 0⟩)
            else .error .registerChecksumBad
          else .ok (s₅, eId :: L₂ ++ L₃ ++ L₄ ++ L₅, none)
    | _ => .error .notOneEndState

/-- The loop of `Traversal::Process` over the snapshots, each with its
pre-allocated `Snap` slot at `snaps_ref + i * sizeof(Snap)`. -/
def processSnapshotsLoop (A : ArchSpec) (opts : GenOptions) (pass : PassType)
    (l : List Snapshot) (snapRef : Ref) (s : TState) :
    Except Err (TState × List Event × List (Option SnapRec)) :=
  match l with
  | [] => .ok (s, [], [])
  | snap :: t =>
    match processAllocatedSnapshot A opts pass snap snapRef s with
    | .error e => .error e
    | .ok (s₁, L₁, rec) =>
      match processSnapshotsLoop A opts pass t (snapRef.add A.snapTypeSize) s₁ with
      | .error e => .error e
      | .ok (s₂, L₂, recs) => .ok (s₂, L₁ ++ L₂, rec :: recs)

/-- Merge one sub-block into the main block:
`main_block_.Allocate(sub)` reserves the sub-block's current size at its
current required alignment. -/
def mergeInto (s : TState) (sub : BlockId) : TState × Ref × Event :=
  let blk := s.get sub
  let (s₁, r, _) := s.allocIn .mainBlock blk.size blk.requiredAlignment
  (s₁, r, .merge sub blk.size blk.requiredAlignment r.offset)

/-- The fixed merge order of `Traversal::Process`: pointer-bearing
sub-blocks first, pointer-free after. -/
def mergeOrder : List BlockId :=
  [.snapBlock, .memoryBytesBlock, .memoryMappingBlock, .byteDataBlock,
   .stringBlock, .fpregsBlock, .gregsBlock, .pageDataBlock]

/-- Merge all sub-blocks into the main block in `mergeOrder`, collecting
the merge events. -/
def mergeAll (s : TState) : TState × List Event :=
  mergeOrder.foldl
    (fun (acc : TState × List Event) sub =>
      let (s₁, _, e) := mergeInto acc.1 sub
      (s₁, acc.2 ++ [e]))
    (s, [])

/-- The block-size counters returned by `Traversal::Process`. -/
def blockSizes (s : TState) : List (String × Nat) :=
  [("main_block", s.mainBlock.size),
   ("snap_block", s.snapBlock.size),
   ("memory_bytes_block", s.memoryBytesBlock.size),
   ("memory_mapping_block", s.memoryMappingBlock.size),
   ("byte_data_block", s.byteDataBlock.size),
   ("string_block", s.stringBlock.size),
   ("fpregs_block", s.fpregsBlock.size),
   ("gregs_block", s.gregsBlock.size),
   ("page_data_block", s.pageDataBlock.size)]

/-- Generation-pass tail of `Traversal::Process`: construct the
`SnapCorpus` with its header (checksum field zero, `num_bytes` the merged
main-block size), fill the const-pointer array, then compute the content
checksum of the image with the checksum slot still zero and store it. -/
def mkCorpusImage (A : ArchSpec) (n : Nat) (elemsRef snapsRef : Ref)
    (recs : List (Option SnapRec)) (s : TState) : CorpusImage :=
  let body : CorpusBody :=
    ⟨recs.filterMap id,
     (List.range n).map fun i => snapsRef.add (i * A.snapTypeSize)⟩
  let image : CorpusImage :=
    { header :=
        { magic := A.magic
          headerSize := A.headerSize
          checksum := 0
          numBytes := s.mainBlock.size
          corpusTypeSize := A.corpusTypeSize
          snapTypeSize := A.snapTypeSize
          registerStateTypeSize := A.registerStateTypeSize
          architectureId := A.archId }
      snapsSize := n
      snapsElements := elemsRef
      body := body }
  { image with header := { image.header with checksum := A.corpusHash image } }

/-- `Traversal::Process`: allocate the `SnapCorpus`, the const-pointer
array elements and the `Snap` array in `snap_block_`, process every
snapshot, merge all sub-blocks into the main block in the fixed order,
emit the corpus (generation pass only) and return the block sizes.  The
result carries the final state, the counters, the ghost event log of the
whole call and the emitted corpus image (generation pass only). -/
def process (A : ArchSpec) (opts : GenOptions) (pass : PassType)
    (snapshots : List Snapshot) (s : TState) :
    Except Err (TState × List (String × Nat) × List Event × Option CorpusImage) :=
  let (s₁, corpusRef, e₁) :=
    s.allocIn .snapBlock A.corpusTypeSize A.corpusTypeAlign
  let (s₂, elemsRef, e₂) :=
    s₁.allocIn .snapBlock (snapshots.length * A.ptrSize) A.ptrAlign
  let (s₃, snapsRef, e₃) :=
    s₂.allocIn .snapBlock (snapshots.length * A.snapTypeSize) A.snapTypeAlign
  match processSnapshotsLoop A opts pass snapshots snapsRef s₃ with
  | .error e => .error e
  | .ok (s₄, L₄, recs) =>
    let (s₅, mergeEvents) := mergeAll s₄
    let _ := corpusRef
    .ok (s₅, blockSizes s₅, e₁ :: e₂ :: e₃ :: (L₄ ++ mergeEvents),
      if pass = .generation then
        some (mkCorpusImage A snapshots.length elemsRef snapsRef recs s₅)
      else none)

/-- `Traversal::PrepareSnapGeneration`: lay each sub-block out inside the
main block to fix its contents pointer and load address (neither is part
of the layout state), resetting the sub-block's size and alignment for
the generation pass; reset the main block before and after; clear all
three dedup tables. -/
def prepareSnapGeneration (s : TState) : TState :=
  let s := s.set .mainBlock (s.mainBlock.resetSizeAndAlignment)
  let s := mergeOrder.foldl
    (fun (t : TState) sub =>
      let (t₁, _, _) := mergeInto t sub
      t₁.set sub ((t₁.get sub).resetSizeAndAlignment))
    s
  let s := s.set .mainBlock (s.mainBlock.resetSizeAndAlignment)
  { s with byteDataRefMap := [], fpregsRefMap := [], gregsRefMap := [] }

/-- `GenerateRelocatableSnapsImpl`: run the layout pass from the initial
state, require the main block's alignment to fit one runner page
(CHECK_LE), allocate the content buffer of the laid-out size, prepare
the blocks, run the generation pass, and return the emitted image, the
counters and the allocated buffer length. -/
def generateRelocatableSnaps (A : ArchSpec) (opts : GenOptions)
    (snapshots : List Snapshot) :
    Except Err (CorpusImage × List (String × Nat) × Nat) :=
  match process A opts .layout snapshots initState with
  | .error e => .error e
  | .ok (s₁, _, _, _) =>
    if s₁.mainBlock.requiredAlignment ≤ kPageSize then
      let bufferLen := s₁.mainBlock.size
      match process A opts .generation snapshots (prepareSnapGeneration s₁) with
      | .error e => .error e
      | .ok (_, counters, _, some image) => .ok (image, counters, bufferLen)
      | .ok (_, _, _, none) => .error .internalError
    else .error .alignmentTooLarge

/-- Bump allocation never moves the current offset backwards. -/
theorem le_alignUp (n a : Nat) : n ≤ alignUp n a := by
  unfold alignUp
  split
  · exact Nat.le_refl n
  · rename_i h
    have h0 : 0 < a := Nat.pos_of_ne_zero h
    have hd : a * ((n + a - 1) / a) + (n + a - 1) % a = n + a - 1 :=
      Nat.div_add_mod (n + a - 1) a
    have hm : (n + a - 1) % a < a := Nat.mod_lt _ h0
    rw [Nat.mul_comm]
    generalize (n + a - 1) / a = q at hd
    generalize (n + a - 1) % a = m at hd hm
    generalize a * q = t at hd ⊢
    omega

/-- Preparing for the generation pass resets every block and clears
every dedup table: the layout-relevant state is exactly the initial one
(load addresses and contents pointers are not layout-relevant). -/
theorem prepareSnapGeneration_eq_initState (s : TState) :
    prepareSnapGeneration s = initState := rfl

/-- `ProcessMemoryBytes` takes the same layout decisions in both passes:
the pass only selects the content memcpy, which is not layout-relevant. -/
theorem processMemoryBytes_pass (p q : PassType) (mb : MemoryBytes)
    (s : TState) : processMemoryBytes p mb s = processMemoryBytes q mb s := rfl

/-- The state and event log of `ProcessAllocated` (MemoryBytes) do not
depend on the pass; only the emitted record (a generation-pass ghost)
does. -/
theorem processAllocatedMemoryBytes_pass (opts : GenOptions) (p : PassType)
    (mb : MemoryBytes) (r : Ref) (s : TState) :
    ((processAllocatedMemoryBytes opts p mb r s).1,
      (processAllocatedMemoryBytes opts p mb r s).2.1) =
    ((processAllocatedMemoryBytes opts .layout mb r s).1,
      (processAllocatedMemoryBytes opts .layout mb r s).2.1) := by
  unfold processAllocatedMemoryBytes
  by_cases hc : (opts.compressRepeatingBytes && isRepeatingByteRun mb.byteValues) = true
  · simp [hc]
  · rw [processMemoryBytes_pass p .layout]
    rcases h : processMemoryBytes PassType.layout mb s with ⟨s₁, r₁, L₁⟩
    simp [hc, h]

/-- The state and event log of the memory-bytes-list loop do not depend
on the pass. -/
theorem processMemoryBytesListLoop_pass (A : ArchSpec) (opts : GenOptions)
    (p : PassType) (l : List MemoryBytes) : ∀ (r : Ref) (s : TState),
    ((processMemoryBytesListLoop A opts p l r s).1,
      (processMemoryBytesListLoop A opts p l r s).2.1) =
    ((processMemoryBytesListLoop A opts .layout l r s).1,
      (processMemoryBytesListLoop A opts .layout l r s).2.1) := by
  induction l with
  | nil => intro r s; rfl
  | cons mb t ih =>
    intro r s
    simp only [processMemoryBytesListLoop]
    have hp := processAllocatedMemoryBytes_pass opts p mb r s
    rcases h1 : processAllocatedMemoryBytes opts p mb r s with ⟨s₁, L₁, g₁⟩
    rcases h2 : processAllocatedMemoryBytes opts .layout mb r s with ⟨s₁', L₁', g₁'⟩
    rw [h1, h2] at hp
    simp only [Prod.mk.injEq] at hp
    obtain ⟨hs, hL⟩ := hp
    subst hs hL
    have hr := ih (r.add A.memoryBytesTypeSize) s₁
    rcases h3 : processMemoryBytesListLoop A opts p t (r.add A.memoryBytesTypeSize) s₁ with ⟨s₂, L₂, g₂⟩
    rcases h4 : processMemoryBytesListLoop A opts .layout t (r.add A.memoryBytesTypeSize) s₁ with ⟨s₂', L₂', g₂'⟩
    rw [h3, h4] at hr
    simp only [Prod.mk.injEq] at hr
    simp [hr.1, hr.2]

/-- The state, Ref and event log of `ProcessMemoryBytesList` do not
depend on the pass. -/
theorem processMemoryBytesList_pass (A : ArchSpec) (opts : GenOptions)
    (p : PassType) (l : List MemoryBytes) (s : TState) :
    ((processMemoryBytesList A opts p l s).1,
      (processMemoryBytesList A opts p l s).2.1,
      (processMemoryBytesList A opts p l s).2.2.1) =
    ((processMemoryBytesList A opts .layout l s).1,
      (processMemoryBytesList A opts .layout l s).2.1,
      (processMemoryBytesList A opts .layout l s).2.2.1) := by
  simp only [processMemoryBytesList]
  rcases ha : s.allocIn .memoryBytesBlock (l.length * A.memoryBytesTypeSize)
      A.memoryBytesTypeAlign with ⟨s₁, ref, e⟩
  have hp := processMemoryBytesListLoop_pass A opts p l ref s₁
  rcases h1 : processMemoryBytesListLoop A opts p l ref s₁ with ⟨s₂, L₂, g₂⟩
  rcases h2 : processMemoryBytesListLoop A opts .layout l ref s₁ with ⟨s₂', L₂', g₂'⟩
  rw [h1, h2] at hp
  simp only [Prod.mk.injEq] at hp
  simp [hp.1, hp.2]

/-- The state and event log of `ProcessMemoryMapping` do not depend on
the pass. -/
theorem processMemoryMapping_pass (A : ArchSpec) (opts : GenOptions)
    (p : PassType) (m : MemoryMapping) (mbl : List MemoryBytes) (r : Ref)
    (s : TState) :
    ((processMemoryMapping A opts p m mbl r s).1,
      (processMemoryMapping A opts p m mbl r s).2.1) =
    ((processMemoryMapping A opts .layout m mbl r s).1,
      (processMemoryMapping A opts .layout m mbl r s).2.1) := by
  simp only [processMemoryMapping]
  have hp := processMemoryBytesList_pass A opts p mbl s
  rcases h1 : processMemoryBytesList A opts p mbl s with ⟨s₁, ref₁, L₁, g₁⟩
  rcases h2 : processMemoryBytesList A opts .layout mbl s with ⟨s₁', ref₁', L₁', g₁'⟩
  rw [h1, h2] at hp
  simp only [Prod.mk.injEq] at hp
  simp [hp.1, hp.2.1, hp.2.2]

/-- The state and event log of the memory-mappings loop do not depend on
the pass. -/
theorem processMemoryMappingsLoop_pass (A : ArchSpec) (opts : GenOptions)
    (p : PassType) (l : List (MemoryMapping × List MemoryBytes)) :
    ∀ (r : Ref) (s : TState),
    ((processMemoryMappingsLoop A opts p l r s).1,
      (processMemoryMappingsLoop A opts p l r s).2.1) =
    ((processMemoryMappingsLoop A opts .layout l r s).1,
      (processMemoryMappingsLoop A opts .layout l r s).2.1) := by
  induction l with
  | nil => intro r s; rfl
  | cons hd t ih =>
    intro r s
    rcases hd with ⟨m, mbl⟩
    simp only [processMemoryMappingsLoop]
    have hp := processMemoryMapping_pass A opts p m mbl r s
    rcases h1 : processMemoryMapping A opts p m mbl r s with ⟨s₁, L₁, g₁⟩
    rcases h2 : processMemoryMapping A opts .layout m mbl r s with ⟨s₁', L₁', g₁'⟩
    rw [h1, h2] at hp
    simp only [Prod.mk.injEq] at hp
    obtain ⟨hs, hL⟩ := hp
    subst hs hL
    have hr := ih (r.add A.mappingTypeSize) s₁
    rcases h3 : processMemoryMappingsLoop A opts p t (r.add A.mappingTypeSize) s₁ with ⟨s₂, L₂, g₂⟩
    rcases h4 : processMemoryMappingsLoop A opts .layout t (r.add A.mappingTypeSize) s₁ with ⟨s₂', L₂', g₂'⟩
    rw [h3, h4] at hr
    simp only [Prod.mk.injEq] at hr
    simp [hr.1, hr.2]

/-- The state, Ref and event log of `ProcessMemoryMappings` do not
depend on the pass. -/
theorem processMemoryMappings_pass (A : ArchSpec) (opts : GenOptions)
    (p : PassType) (mappings : List MemoryMapping)
    (bpm : List (List MemoryBytes)) (s : TState) :
    ((processMemoryMappings A opts p mappings bpm s).1,
      (processMemoryMappings A opts p mappings bpm s).2.1,
      (processMemoryMappings A opts p mappings bpm s).2.2.1) =
    ((processMemoryMappings A opts .layout mappings bpm s).1,
      (processMemoryMappings A opts .layout mappings bpm s).2.1,
      (processMemoryMappings A opts .layout mappings bpm s).2.2.1) := by
  simp only [processMemoryMappings]
  rcases ha : s.allocIn .memoryMappingBlock (mappings.length * A.mappingTypeSize)
      A.mappingTypeAlign with ⟨s₁, ref, e⟩
  have hp := processMemoryMappingsLoop_pass A opts p (mappings.zip bpm) ref s₁
  rcases h1 : processMemoryMappingsLoop A opts p (mappings.zip bpm) ref s₁ with ⟨s₂, L₂, g₂⟩
  rcases h2 : processMemoryMappingsLoop A opts .layout (mappings.zip bpm) ref s₁ with ⟨s₂', L₂', g₂'⟩
  rw [h1, h2] at hp
  simp only [Prod.mk.injEq] at hp
  simp [hp.1, hp.2]

/-- If the generation pass of `ProcessRegisterSet` succeeds, the layout
pass from the same state succeeds with the same state, Ref and events:
the pass only adds the fatal checks and the content write. -/
theorem processRegisterSet_gen_layout (A : ArchSpec) (kind : RegKind)
    (bytes : ByteData) (ae : Bool) (s s' : TState) (r : Ref) (L : List Event)
    (w : Option RegWrite)
    (h : processRegisterSet A .generation kind bytes ae s = .ok (s', r, L, w)) :
    processRegisterSet A .layout kind bytes ae s = .ok (s', r, L, none) := by
  unfold processRegisterSet at h ⊢
  rcases hl : lookupRef (s.regMap kind) bytes with _ | r₀
  · rw [hl] at h
    rcases ha : s.allocIn (regBlockId kind) (A.regSize kind) (A.regAlign kind)
      with ⟨s₁, r₁, e₁⟩
    rw [ha] at h
    simp only at h
    rcases bytes with _ | ⟨b, t⟩
    · simp only at h
      by_cases hae : ae = true
      · simp [hae] at h
        simp [hae, ← h.1, ← h.2.1, ← h.2.2.1]
      · simp [hae] at h
    · simp only at h
      by_cases hd : A.deserOk kind (b :: t) = true
      · simp [hd] at h
        simp [← h.1, ← h.2.1, ← h.2.2.1]
      · simp [hd] at h
  · rw [hl] at h
    simp only [Except.ok.injEq, Prod.mk.injEq] at h
    simp [← h.1, ← h.2.1, ← h.2.2.1]

/-- If the generation pass of `ProcessRegisterState` succeeds, the layout
pass from the same state succeeds with the same state, Refs and events. -/
theorem processRegisterState_gen_layout (A : ArchSpec) (rs : RegisterState)
    (ae : Bool) (s s' : TState) (refs : RegisterStateRefs) (L : List Event)
    (c : Option Nat)
    (h : processRegisterState A .generation rs ae s = .ok (s', refs, L, c)) :
    processRegisterState A .layout rs ae s = .ok (s', refs, L, none) := by
  unfold processRegisterState at h ⊢
  rcases h1 : processRegisterSet A .generation .gregs rs.gregs ae s with e₁ | ⟨s₁, gr, L₁, w₁⟩
  · rw [h1] at h; exact absurd h (by simp)
  · rw [h1] at h
    rw [processRegisterSet_gen_layout A .gregs rs.gregs ae s s₁ gr L₁ w₁ h1]
    simp only at h ⊢
    rcases h2 : processRegisterSet A .generation .fpregs rs.fpregs ae s₁ with e₂ | ⟨s₂, fr, L₂, w₂⟩
    · rw [h2] at h; exact absurd h (by simp)
    · rw [h2] at h
      rw [processRegisterSet_gen_layout A .fpregs rs.fpregs ae s₁ s₂ fr L₂ w₂ h2]
      simp only [Except.ok.injEq, Prod.mk.injEq] at h
      simp [← h.1, ← h.2.1, ← h.2.2.1]

/-- If the generation pass of the Snapshot `ProcessAllocated` succeeds,
the layout pass from the same state succeeds with the same state and
events: the generation pass only adds the register and register-checksum
fatal checks, the content writes and the emitted record. -/
theorem processAllocatedSnapshot_gen_layout (A : ArchSpec) (opts : GenOptions)
    (snap : Snapshot) (ref : Ref) (s s' : TState) (L : List Event)
    (g : Option SnapRec)
    (h : processAllocatedSnapshot A opts .generation snap ref s = .ok (s', L, g)) :
    processAllocatedSnapshot A opts .layout snap ref s = .ok (s', L, none) := by
  unfold processAllocatedSnapshot at h ⊢
  by_cases harch : snap.architectureId ≠ A.archId
  · simp [harch] at h
  · simp only [harch, if_false] at h ⊢
    rcases ha : s.allocIn .stringBlock (snap.id.length + 1) 1 with ⟨s₁, idRef, eId⟩
    rw [ha] at h
    have hmm := processMemoryMappings_pass A opts .generation snap.memoryMappings
      (splitBytesByMapping snap.memoryMappings snap.memoryBytes) s₁
    rcases hm1 : processMemoryMappings A opts .generation snap.memoryMappings
      (splitBytesByMapping snap.memoryMappings snap.memoryBytes) s₁ with ⟨s₂, mmRef, L₂, gm⟩
    rcases hm2 : processMemoryMappings A opts .layout snap.memoryMappings
      (splitBytesByMapping snap.memoryMappings snap.memoryBytes) s₁ with ⟨s₂', mmRef', L₂', gm'⟩
    rw [hm1] at h
    rw [hm1, hm2] at hmm
    simp only [Prod.mk.injEq] at hmm
    obtain ⟨hs₂, hmmRef, hL₂⟩ := hmm
    subst hs₂ hmmRef hL₂
    rcases hes : snap.expectedEndStates with _ | ⟨endState, rest⟩
    · rw [hes] at h; exact absurd h (by simp)
    · rw [hes] at h
      rcases rest with _ | ⟨e2, r2⟩
      · simp only at h ⊢
        have hml := processMemoryBytesList_pass A opts .generation endState.memoryBytes s₂
        rcases hb1 : processMemoryBytesList A opts .generation endState.memoryBytes s₂ with ⟨s₃, esRef, L₃, gb⟩
        rcases hb2 : processMemoryBytesList A opts .layout endState.memoryBytes s₂ with ⟨s₃', esRef', L₃', gb'⟩
        rw [hb1] at h
        rw [hb1, hb2] at hml
        simp only [Prod.mk.injEq] at hml
        obtain ⟨hs₃, hesRef, hL₃⟩ := hml
        subst hs₃ hesRef hL₃
        rcases hr1 : processRegisterState A .generation snap.registers false s₃ with e₁ | ⟨s₄, regRefs, L₄, rmc⟩
        · rw [hr1] at h; exact absurd h (by simp)
        · rw [hr1] at h
          rw [processRegisterState_gen_layout A snap.registers false s₃ s₄ regRefs L₄ rmc hr1]
          simp only at h ⊢
          rcases hr2 : processRegisterState A .generation endState.registers true s₄ with e₂ | ⟨s₅, esRegRefs, L₅, esrmc⟩
          · rw [hr2] at h; exact absurd h (by simp)
          · rw [hr2] at h
            rw [processRegisterState_gen_layout A endState.registers true s₄ s₅ esRegRefs L₅ esrmc hr2]
            simp only at h ⊢
            by_cases hck : A.deserializeRegisterChecksumOk endState.registerChecksum = true
            · simp only [hck, if_true, Except.ok.injEq, Prod.mk.injEq] at h
              simp [← h.1, ← h.2.1]
            · simp [hck] at h
      · simp only at h
        exact absurd h (by simp)

/-- If the generation pass of the snapshot loop succeeds, the layout
pass from the same state succeeds with the same state and events. -/
theorem processSnapshotsLoop_gen_layout (A : ArchSpec) (opts : GenOptions)
    (l : List Snapshot) : ∀ (ref : Ref) (s s' : TState) (L : List Event)
    (g : List (Option SnapRec)),
    processSnapshotsLoop A opts .generation l ref s = .ok (s', L, g) →
    processSnapshotsLoop A opts .layout l ref s =
      .ok (s', L, List.replicate l.length none) := by
  induction l with
  | nil =>
    intro ref s s' L g h
    simp only [processSnapshotsLoop, Except.ok.injEq, Prod.mk.injEq] at h ⊢
    exact ⟨h.1, h.2.1, rfl⟩
  | cons snap t ih =>
    intro ref s s' L g h
    simp only [processSnapshotsLoop] at h ⊢
    rcases h1 : processAllocatedSnapshot A opts .generation snap ref s with e₁ | ⟨s₁, L₁, g₁⟩
    · rw [h1] at h; exact absurd h (by simp)
    · rw [h1] at h
      rw [processAllocatedSnapshot_gen_layout A opts snap ref s s₁ L₁ g₁ h1]
      simp only at h ⊢
      rcases h2 : processSnapshotsLoop A opts .generation t (ref.add A.snapTypeSize) s₁ with e₂ | ⟨s₂, L₂, g₂⟩
      · rw [h2] at h; exact absurd h (by simp)
      · rw [h2] at h
        rw [ih (ref.add A.snapTypeSize) s₁ s₂ L₂ g₂ h2]
        simp only [Except.ok.injEq, Prod.mk.injEq, List.replicate] at h ⊢
        exact ⟨h.1, h.2.1, by trivial⟩

/-- If the generation pass of `Process` succeeds, the layout pass from
the same state succeeds with the same final state, the same block-size
counters and the same event log — pass equality of the whole traversal. -/
theorem process_gen_layout (A : ArchSpec) (opts : GenOptions)
    (snapshots : List Snapshot) (s s' : TState) (sizes : List (String × Nat))
    (L : List Event) (g : Option CorpusImage)
    (h : process A opts .generation snapshots s = .ok (s', sizes, L, g)) :
    process A opts .layout snapshots s = .ok (s', sizes, L, none) := by
  unfold process at h ⊢
  simp only at h ⊢
  generalize h1 : s.allocIn BlockId.snapBlock A.corpusTypeSize A.corpusTypeAlign = X1 at h ⊢
  generalize h2 : X1.1.allocIn BlockId.snapBlock (snapshots.length * A.ptrSize) A.ptrAlign = X2 at h ⊢
  generalize h3 : X2.1.allocIn BlockId.snapBlock (snapshots.length * A.snapTypeSize) A.snapTypeAlign = X3 at h ⊢
  rcases h4 : processSnapshotsLoop A opts PassType.generation snapshots X3.2.1 X3.1 with e₄ | ⟨s₄, L₄, recs⟩
  · rw [h4] at h
    exact absurd h (by simp)
  · rw [h4] at h
    rw [processSnapshotsLoop_gen_layout A opts snapshots X3.2.1 X3.1 s₄ L₄ recs h4]
    simp only [Except.ok.injEq, Prod.mk.injEq] at h ⊢
    exact ⟨h.1, h.2.1, h.2.2.1, rfl⟩

/-- The result type of `process`. -/
abbrev ProcessResult :=
  Except Err (TState × List (String × Nat) × List Event × Option CorpusImage)

/-- Whether an engine step succeeded (no fatal assertion fired). -/
def isOkE {α : Type} : Except Err α → Bool
  | .ok _ => true
  | .error _ => false

/-- The final traversal state of a `process` result (initial state on error). -/
def resultStateOf : ProcessResult → TState
  | .ok (s, _, _, _) => s
  | .error _ => initState

/-- The block-size counters of a `process` result. -/
def resultSizesOf : ProcessResult → List (String × Nat)
  | .ok (_, z, _, _) => z
  | .error _ => []

/-- The ghost event log of a `process` result. -/
def resultLogOf : ProcessResult → List Event
  | .ok (_, _, L, _) => L
  | .error _ => []

/-- The emitted corpus image of a `process` result. -/
def resultImageOf : ProcessResult → Option CorpusImage
  | .ok (_, _, _, g) => g
  | .error _ => none

/-- A small concrete architecture instantiation used to exhibit concrete
runs of the engine (sizes and hash functions are arbitrary but fixed). -/
def sampleArch : ArchSpec where
  archId := 0
  corpusTypeSize := 64
  corpusTypeAlign := 8
  snapTypeSize := 128
  snapTypeAlign := 8
  ptrSize := 8
  ptrAlign := 8
  mappingTypeSize := 40
  mappingTypeAlign := 8
  memoryBytesTypeSize := 24
  memoryBytesTypeAlign := 8
  gregsTypeSize := 16
  gregsTypeAlign := 8
  fpregsTypeSize := 32
  fpregsTypeAlign := 8
  headerSize := 56
  registerStateTypeSize := 16
  magic := 51966
  deserializeGRegsOk := fun b => !b.isEmpty
  deserializeFPRegsOk := fun b => !b.isEmpty
  deserializeRegisterChecksumOk := fun _ => true
  hashBytes := fun l => l.foldl (fun a b => a * 31 + b + 1) 7
  regMemChecksum := fun g f => g.length + 2 * f.length + 3
  corpusHash := fun img => img.header.numBytes + img.snapsSize + 11

/-- A small well-formed snapshot: one mapping, one memory-bytes record,
nonempty start registers, one end state with empty registers. -/
def sampleSnapshot : Snapshot where
  architectureId := 0
  id := [65, 66]
  memoryMappings := [⟨65536, 4096, 5⟩]
  memoryBytes := [⟨65536, [1, 2, 3]⟩]
  registers := ⟨[9], [8, 8]⟩
  expectedEndStates := [⟨70000, ⟨[], []⟩, [⟨65600, [4, 5]⟩], [4]⟩]

/-- C1: running `Process` twice over the same snapshot list — first as
the LAYOUT pass and then, after `PrepareSnapGeneration`, as the
EMIT/generation pass — performs the same allocation sequence in both
passes: the ghost event log (which records every allocation's block,
size, alignment and resulting offset, i.e. every Ref) of the generation
pass equals that of the layout pass, and the block-size map returned by
the layout pass equals the one returned by the generation pass verbatim. -/
theorem two_pass_allocation_equality (A : ArchSpec) (opts : GenOptions)
    (snapshots : List Snapshot)
    (h1 : isOkE (process A opts .layout snapshots initState) = true)
    (h2 : isOkE (process A opts .generation snapshots
      (prepareSnapGeneration
        (resultStateOf (process A opts .layout snapshots initState)))) = true) :
    resultLogOf (process A opts .generation snapshots
      (prepareSnapGeneration
        (resultStateOf (process A opts .layout snapshots initState)))) =
      resultLogOf (process A opts .layout snapshots initState) ∧
    resultSizesOf (process A opts .generation snapshots
      (prepareSnapGeneration
        (resultStateOf (process A opts .layout snapshots initState)))) =
      resultSizesOf (process A opts .layout snapshots initState) := by
  rw [prepareSnapGeneration_eq_initState] at h2 ⊢
  rcases hL : process A opts .layout snapshots initState with e | ⟨s₁, sizes₁, L₁, g₁⟩
  · rw [hL] at h1
    exact absurd h1 (by simp [isOkE])
  · rcases hG : process A opts .generation snapshots initState with e | ⟨s₂, sizes₂, L₂, g₂⟩
    · rw [hG] at h2
      exact absurd h2 (by simp [isOkE])
    · have hsim := process_gen_layout A opts snapshots initState s₂ sizes₂ L₂ g₂ hG
      rw [hL] at hsim
      simp only [Except.ok.injEq, Prod.mk.injEq] at hsim
      simp only [resultLogOf, resultSizesOf]
      exact ⟨hsim.2.2.1.symm, hsim.2.1.symm⟩

/-- Witness for C1: a concrete layout-then-emit run on `sampleSnapshot`
where both passes succeed and produce equal logs and block sizes. -/
theorem two_pass_allocation_equality_witness :
    isOkE (process sampleArch ⟨true⟩ .layout [sampleSnapshot] initState) = true ∧
    (resultLogOf (process sampleArch ⟨true⟩ .generation [sampleSnapshot]
      (prepareSnapGeneration
        (resultStateOf (process sampleArch ⟨true⟩ .layout [sampleSnapshot] initState)))) =
      resultLogOf (process sampleArch ⟨true⟩ .layout [sampleSnapshot] initState) ∧
    resultSizesOf (process sampleArch ⟨true⟩ .generation [sampleSnapshot]
      (prepareSnapGeneration
        (resultStateOf (process sampleArch ⟨true⟩ .layout [sampleSnapshot] initState)))) =
      resultSizesOf (process sampleArch ⟨true⟩ .layout [sampleSnapshot] initState)) :=
  ⟨by decide,
   two_pass_allocation_equality sampleArch ⟨true⟩ [sampleSnapshot]
     (by decide) (by decide)⟩

/-- Replace the `checksum` slot of an emitted corpus image (the
operation used to state the checksum fixpoint). -/
def setCorpusChecksum (img : CorpusImage) (c : Nat) : CorpusImage :=
  { img with header := { img.header with checksum := c } }

/-- The emitted image of a full generator run. -/
def genImageOf : Except Err (CorpusImage × List (String × Nat) × Nat) →
    Option CorpusImage
  | .ok (img, _, _) => some img
  | .error _ => none

/-- The allocated content-buffer length of a full generator run. -/
def genBufferLenOf : Except Err (CorpusImage × List (String × Nat) × Nat) → Nat
  | .ok (_, _, n) => n
  | .error _ => 0

/-- The stored header checksum of a full generator run. -/
def genChecksumOf : Except Err (CorpusImage × List (String × Nat) × Nat) →
    Option Nat
  | .ok (img, _, _) => some img.header.checksum
  | .error _ => none

/-- The header's `num_bytes` field records the merged main-block size. -/
theorem mkCorpusImage_numBytes (A : ArchSpec) (n : Nat) (e r : Ref)
    (recs : List (Option SnapRec)) (t : TState) :
    (mkCorpusImage A n e r recs t).header.numBytes = t.mainBlock.size := rfl

/-- The stored checksum is the content hash of the image with the
checksum slot zeroed: zeroing the slot of the emitted image restores
exactly the hashed pre-image. -/
theorem mkCorpusImage_checksum_fixpoint (A : ArchSpec) (n : Nat) (e r : Ref)
    (recs : List (Option SnapRec)) (t : TState) :
    A.corpusHash (setCorpusChecksum (mkCorpusImage A n e r recs t) 0) =
      (mkCorpusImage A n e r recs t).header.checksum := rfl

/-- A successful generation pass always emits a corpus image, built by
`mkCorpusImage` over the final (merged) state. -/
theorem process_generation_ghost (A : ArchSpec) (opts : GenOptions)
    (snaps : List Snapshot) (s s' : TState) (z : List (String × Nat))
    (L : List Event) (g : Option CorpusImage)
    (h : process A opts .generation snaps s = .ok (s', z, L, g)) :
    ∃ eref sref recs, g = some (mkCorpusImage A snaps.length eref sref recs s') := by
  unfold process at h
  simp only at h
  generalize h1 : s.allocIn BlockId.snapBlock A.corpusTypeSize A.corpusTypeAlign = X1 at h
  generalize h2 : X1.1.allocIn BlockId.snapBlock (snaps.length * A.ptrSize) A.ptrAlign = X2 at h
  generalize h3 : X2.1.allocIn BlockId.snapBlock (snaps.length * A.snapTypeSize) A.snapTypeAlign = X3 at h
  rcases h4 : processSnapshotsLoop A opts PassType.generation snaps X3.2.1 X3.1 with e₄ | ⟨s₄, L₄, recs⟩
  · rw [h4] at h
    exact absurd h (by simp)
  · rw [h4] at h
    simp only [Except.ok.injEq, Prod.mk.injEq] at h
    exact ⟨X2.2.1, X3.2.1, recs, by rw [← h.2.2.2, ← h.1]; simp⟩

/-- C5: for every emitted corpus, `header.num_bytes` equals the total
emitted buffer length (the main block's size used to allocate the
buffer), and the stored `header.checksum` is the content hash of the
image computed while the checksum slot holds zero, so replacing
`header.checksum` by zero and recomputing the hash yields the stored
value. -/
theorem corpus_header_numbytes_checksum (A : ArchSpec) (opts : GenOptions)
    (snaps : List Snapshot) :
    ((genImageOf (generateRelocatableSnaps A opts snaps)).map
        fun img => img.header.numBytes) =
      ((genImageOf (generateRelocatableSnaps A opts snaps)).map
        fun _ => genBufferLenOf (generateRelocatableSnaps A opts snaps)) ∧
    ((genImageOf (generateRelocatableSnaps A opts snaps)).map
        fun img => A.corpusHash (setCorpusChecksum img 0)) =
      ((genImageOf (generateRelocatableSnaps A opts snaps)).map
        fun img => img.header.checksum) := by
  unfold generateRelocatableSnaps
  rcases hL : process A opts .layout snaps initState with e | ⟨s₁, z₁, L₁, g₁⟩
  · simp [genImageOf]
  · simp only
    by_cases hal : s₁.mainBlock.requiredAlignment ≤ kPageSize
    · rw [if_pos hal, prepareSnapGeneration_eq_initState]
      rcases hG : process A opts .generation snaps initState with e | ⟨s₂, z₂, L₂, g₂⟩
      · simp [genImageOf]
      · obtain ⟨eref, sref, recs, hg⟩ :=
          process_generation_ghost A opts snaps initState s₂ z₂ L₂ g₂ hG
        subst hg
        have hsim := process_gen_layout A opts snaps initState s₂ z₂ L₂
          (some (mkCorpusImage A snaps.length eref sref recs s₂)) hG
        rw [hL] at hsim
        simp only [Except.ok.injEq, Prod.mk.injEq] at hsim
        simp [genImageOf, genBufferLenOf, mkCorpusImage_numBytes,
          mkCorpusImage_checksum_fixpoint, ← hsim.1]
    · rw [if_neg hal]
      simp [genImageOf]

/-- C9: generation is deterministic — the generator run on equal inputs
returns equal results, including the stored header checksum.  (The
engine is a pure function of its inputs: its dedup tables are only ever
queried by payload content, never iterated, so no hash-map iteration
order can leak into the output.) -/
theorem generation_deterministic (A : ArchSpec) (opts opts' : GenOptions)
    (snaps snaps' : List Snapshot) (hs : snaps = snaps') (ho : opts = opts') :
    generateRelocatableSnaps A opts snaps =
      generateRelocatableSnaps A opts' snaps' ∧
    genChecksumOf (generateRelocatableSnaps A opts snaps) =
      genChecksumOf (generateRelocatableSnaps A opts' snaps') := by
  subst hs ho
  exact ⟨rfl, rfl⟩

/-- Witness for C9 at a concrete input. -/
theorem generation_deterministic_witness :
    generateRelocatableSnaps sampleArch ⟨true⟩ [sampleSnapshot] =
      generateRelocatableSnaps sampleArch ⟨true⟩ [sampleSnapshot] ∧
    genChecksumOf (generateRelocatableSnaps sampleArch ⟨true⟩ [sampleSnapshot]) =
      genChecksumOf (generateRelocatableSnaps sampleArch ⟨true⟩ [sampleSnapshot]) :=
  generation_deterministic sampleArch ⟨true⟩ ⟨true⟩ [sampleSnapshot]
    [sampleSnapshot] rfl rfl

/-- Whether a ghost event is a main-block merge event. -/
def Event.isMerge : Event → Bool
  | .merge _ _ _ _ => true
  | _ => false

/-- Dedup-table monotonicity between two states: every binding visible
in `s` is still visible, unchanged, in `t`.  All traversal steps within
one pass only add fresh bindings (the C++ `try_emplace` never
overwrites), so this holds along every run. -/
def Extends (s t : TState) : Prop :=
  (∀ k r, lookupRef s.byteDataRefMap k = some r →
    lookupRef t.byteDataRefMap k = some r) ∧
  (∀ kk k r, lookupRef (s.regMap kk) k = some r →
    lookupRef (t.regMap kk) k = some r)

/-- Well-formedness of the dedup tables: byte-data bindings point into
`byte_data_block` or `page_data_block`, and each register kind's
bindings point into that kind's own block. -/
def MapsWF (s : TState) : Prop :=
  (∀ k r, lookupRef s.byteDataRefMap k = some r →
    r.block = BlockId.byteDataBlock ∨ r.block = BlockId.pageDataBlock) ∧
  (∀ kk k r, lookupRef (s.regMap kk) k = some r → r.block = regBlockId kk)

/-- A payload event is accounted for in the state `t`: its Ref is the
one bound to its byte content in the corresponding dedup table, and the
Ref points into the sub-block that table allocates from. -/
def eventOK (t : TState) : Event → Prop
  | .mbPayload b r =>
      lookupRef t.byteDataRefMap b = some r ∧
      (r.block = BlockId.byteDataBlock ∨ r.block = BlockId.pageDataBlock)
  | .regPayload kk b r =>
      lookupRef (t.regMap kk) b = some r ∧ r.block = regBlockId kk
  | _ => True

/-- Invariant packaging for one traversal step from `s` to `t` emitting
events `L`: the tables extend, stay well-formed, every emitted payload
event is accounted for in `t`, and no merge event is emitted. -/
def StepOK (s t : TState) (L : List Event) : Prop :=
  Extends s t ∧ (MapsWF s → MapsWF t) ∧
  (MapsWF s → ∀ e ∈ L, eventOK t e) ∧
  (∀ e ∈ L, e.isMerge = false)

theorem Extends_refl (s : TState) : Extends s s :=
  ⟨fun _ _ h => h, fun _ _ _ h => h⟩

theorem Extends_trans {s t u : TState} (h1 : Extends s t) (h2 : Extends t u) :
    Extends s u :=
  ⟨fun k r h => h2.1 k r (h1.1 k r h), fun kk k r h => h2.2 kk k r (h1.2 kk k r h)⟩

theorem eventOK_mono {t u : TState} (h : Extends t u) {e : Event}
    (he : eventOK t e) : eventOK u e := by
  cases e with
  | mbPayload b r => exact ⟨h.1 b r he.1, he.2⟩
  | regPayload kk b r => exact ⟨h.2 kk b r he.1, he.2⟩
  | alloc => trivial
  | merge => trivial

theorem StepOK_refl (s : TState) : StepOK s s [] :=
  ⟨Extends_refl s, fun h => h, fun _ e he => absurd he (by simp),
   fun e he => absurd he (by simp)⟩

theorem StepOK_trans {s t u : TState} {L₁ L₂ : List Event}
    (h1 : StepOK s t L₁) (h2 : StepOK t u L₂) : StepOK s u (L₁ ++ L₂) := by
  refine ⟨Extends_trans h1.1 h2.1, fun hw => h2.2.1 (h1.2.1 hw), fun hw e he => ?_,
    fun e he => ?_⟩
  · rcases List.mem_append.mp he with h | h
    · exact eventOK_mono h2.1 (h1.2.2.1 hw e h)
    · exact h2.2.2.1 (h1.2.1 hw) e h
  · rcases List.mem_append.mp he with h | h
    · exact h1.2.2.2 e h
    · exact h2.2.2.2 e h

/-- Looking up the key just inserted returns its Ref. -/
theorem lookupRef_cons_self (m : DedupedRefMap) (k : ByteData) (r : Ref) :
    lookupRef ((k, r) :: m) k = some r := by simp [lookupRef]

/-- Inserting a key that was absent preserves every other binding. -/
theorem lookupRef_cons_of_miss (m : DedupedRefMap) (k k' : ByteData)
    (r r' : Ref) (hmiss : lookupRef m k = none)
    (h : lookupRef m k' = some r') : lookupRef ((k, r) :: m) k' = some r' := by
  by_cases he : k = k'
  · subst he
    rw [hmiss] at h
    exact absurd h (by simp)
  · simpa [lookupRef, he] using h

/-- Allocation does not touch the byte-data dedup table. -/
theorem allocIn_byteDataRefMap (s : TState) (b : BlockId) (sz al : Nat) :
    ((s.allocIn b sz al).1).byteDataRefMap = s.byteDataRefMap := by
  cases b <;> rfl

/-- Allocation does not touch the register dedup tables. -/
theorem allocIn_regMap (s : TState) (b : BlockId) (sz al : Nat) (kk : RegKind) :
    ((s.allocIn b sz al).1).regMap kk = s.regMap kk := by
  cases b <;> cases kk <;> rfl

/-- The allocation event of `allocIn` carries its block, size, alignment
and the aligned offset. -/
theorem allocIn_event (s : TState) (b : BlockId) (sz al : Nat) :
    (s.allocIn b sz al).2.2 = .alloc b sz al (alignUp ((s.get b).size) al) := rfl

/-- The Ref returned by `allocIn` points into the requested block. -/
theorem allocIn_ref_block (s : TState) (b : BlockId) (sz al : Nat) :
    ((s.allocIn b sz al).2.1).block = b := rfl

/-- Inserting a byte-data binding does not touch the register tables. -/
theorem insertByteData_regMap (s : TState) (k : ByteData) (r : Ref)
    (kk : RegKind) : (s.insertByteData k r).regMap kk = s.regMap kk := by
  cases kk <;> rfl

/-- The byte-data table after an insertion. -/
theorem insertByteData_byteDataRefMap (s : TState) (k : ByteData) (r : Ref) :
    (s.insertByteData k r).byteDataRefMap = (k, r) :: s.byteDataRefMap := rfl

/-- Inserting a register binding does not touch the byte-data table. -/
theorem insertReg_byteDataRefMap (s : TState) (kind : RegKind) (k : ByteData)
    (r : Ref) : (s.insertReg kind k r).byteDataRefMap = s.byteDataRefMap := by
  cases kind <;> rfl

/-- The register table of the same kind after an insertion. -/
theorem insertReg_regMap_self (s : TState) (kind : RegKind) (k : ByteData)
    (r : Ref) : (s.insertReg kind k r).regMap kind = (k, r) :: s.regMap kind := by
  cases kind <;> rfl

/-- Inserting a register binding does not touch the other kind's table. -/
theorem insertReg_regMap_other (s : TState) (kind kk : RegKind) (k : ByteData)
    (r : Ref) (h : kk ≠ kind) :
    (s.insertReg kind k r).regMap kk = s.regMap kk := by
  cases kind <;> cases kk <;> first | rfl | exact absurd rfl h

/-- An allocation is a `StepOK` step emitting its allocation event. -/
theorem stepOK_allocIn (s : TState) (b : BlockId) (sz al : Nat) :
    StepOK s ((s.allocIn b sz al).1) [(s.allocIn b sz al).2.2] := by
  have hb := allocIn_byteDataRefMap s b sz al
  have hr := allocIn_regMap s b sz al
  refine ⟨⟨fun k r h => by rw [hb]; exact h, fun kk k r h => by rw [hr]; exact h⟩,
    fun hw => ⟨fun k r h => hw.1 k r (by rw [← hb]; exact h),
      fun kk k r h => hw.2 kk k r (by rw [← hr]; exact h)⟩,
    fun _ e he => ?_, fun e he => ?_⟩
  · rcases List.mem_singleton.mp he with h
    rw [h, allocIn_event]
    trivial
  · rcases List.mem_singleton.mp he with h
    rw [h, allocIn_event]
    rfl

/-- Case analysis for a lookup in an extended table. -/
theorem lookupRef_cons_cases (m : DedupedRefMap) (k' k : ByteData)
    (r' r : Ref) (h : lookupRef ((k', r') :: m) k = some r) :
    (k' = k ∧ r' = r) ∨ lookupRef m k = some r := by
  by_cases he : k' = k
  · subst he
    rw [lookupRef_cons_self] at h
    exact Or.inl ⟨rfl, (Option.some.injEq _ _ ▸ h).symm ▸ rfl⟩
  · right
    simpa [lookupRef, he] using h

/-- The dedup-miss allocate-and-insert step of `ProcessMemoryBytes` is a
well-formed step, for either destination block. -/
theorem stepOK_mb_insert (s : TState) (mb : MemoryBytes) (b : BlockId)
    (sz al : Nat) (hmiss : lookupRef s.byteDataRefMap mb.byteValues = none)
    (hb : b = BlockId.byteDataBlock ∨ b = BlockId.pageDataBlock) :
    StepOK s (((s.allocIn b sz al).1).insertByteData mb.byteValues
        ((s.allocIn b sz al).2.1))
      [(s.allocIn b sz al).2.2,
       .mbPayload mb.byteValues ((s.allocIn b sz al).2.1)] := by
  have hbm := allocIn_byteDataRefMap s b sz al
  have hrm := allocIn_regMap s b sz al
  have hblock : ((s.allocIn b sz al).2.1).block = b := allocIn_ref_block s b sz al
  constructor
  · constructor
    · intro k r h
      rw [insertByteData_byteDataRefMap]
      exact lookupRef_cons_of_miss _ _ _ _ _ (hbm ▸ hmiss) (hbm ▸ h)
    · intro kk k r h
      rw [insertByteData_regMap, hrm]
      exact h
  refine ⟨fun hw => ⟨fun k r h => ?_, fun kk k r h => ?_⟩, fun hw e he => ?_,
    fun e he => ?_⟩
  · rw [insertByteData_byteDataRefMap] at h
    rcases lookupRef_cons_cases _ _ _ _ _ h with ⟨hk, hr⟩ | h
    · rw [← hr, hblock]
      exact hb
    · exact hw.1 k r (hbm ▸ h)
  · rw [insertByteData_regMap, hrm] at h
    exact hw.2 kk k r h
  · rcases List.mem_cons.mp he with rfl | he
    · rw [allocIn_event]
      trivial
    · rcases List.mem_singleton.mp he with rfl
      refine ⟨?_, ?_⟩
      · rw [insertByteData_byteDataRefMap]
        exact lookupRef_cons_self _ _ _
      · rw [hblock]
        exact hb
  · rcases List.mem_cons.mp he with rfl | he
    · rw [allocIn_event]; rfl
    · rcases List.mem_singleton.mp he with rfl
      rfl

/-- `ProcessMemoryBytes` is a well-formed step. -/
theorem stepOK_processMemoryBytes (p : PassType) (mb : MemoryBytes)
    (s s' : TState) (r : Ref) (L : List Event)
    (h : processMemoryBytes p mb s = (s', r, L)) : StepOK s s' L := by
  unfold processMemoryBytes at h
  rcases hl : lookupRef s.byteDataRefMap mb.byteValues with _ | r₀
  · rw [hl] at h
    by_cases hpa : (isPageAligned mb.startAddress && isPageAligned mb.numBytes) = true
    · rw [if_pos hpa] at h
      simp only [Prod.mk.injEq] at h
      rw [← h.1, ← h.2.2]
      exact stepOK_mb_insert s mb _ _ _ hl (Or.inr rfl)
    · rw [if_neg hpa] at h
      simp only [Prod.mk.injEq] at h
      rw [← h.1, ← h.2.2]
      exact stepOK_mb_insert s mb _ _ _ hl (Or.inl rfl)
  · rw [hl] at h
    simp only [Prod.mk.injEq] at h
    rw [← h.1, ← h.2.2]
    refine ⟨Extends_refl s, fun hw => hw, fun hw e he => ?_, fun e he => ?_⟩
    · rcases List.mem_singleton.mp he with he
      rw [he]
      exact ⟨hl, hw.1 _ _ hl⟩
    · rcases List.mem_singleton.mp he with he
      rw [he]; rfl

/-- `ProcessAllocated` (MemoryBytes) is a well-formed step. -/
theorem stepOK_processAllocatedMemoryBytes (opts : GenOptions) (p : PassType)
    (mb : MemoryBytes) (ref : Ref) (s s' : TState) (L : List Event)
    (g : Option SnapMemoryBytesRec)
    (h : processAllocatedMemoryBytes opts p mb ref s = (s', L, g)) :
    StepOK s s' L := by
  unfold processAllocatedMemoryBytes at h
  by_cases hc : (opts.compressRepeatingBytes && isRepeatingByteRun mb.byteValues) = true
  · rw [if_pos hc] at h
    simp only [Prod.mk.injEq] at h
    rw [← h.1, ← h.2.1]
    exact StepOK_refl s
  · rw [if_neg hc] at h
    rcases hmb : processMemoryBytes p mb s with ⟨s₁, r₁, L₁⟩
    rw [hmb] at h
    simp only [Prod.mk.injEq] at h
    rw [← h.1, ← h.2.1]
    exact stepOK_processMemoryBytes p mb s s₁ r₁ L₁ hmb

/-- The memory-bytes-list loop is a well-formed step. -/
theorem stepOK_processMemoryBytesListLoop (A : ArchSpec) (opts : GenOptions)
    (p : PassType) (l : List MemoryBytes) : ∀ (ref : Ref) (s s' : TState)
    (L : List Event) (g : List (Option SnapMemoryBytesRec)),
    processMemoryBytesListLoop A opts p l ref s = (s', L, g) → StepOK s s' L := by
  induction l with
  | nil =>
    intro ref s s' L g h
    simp only [processMemoryBytesListLoop, Prod.mk.injEq] at h
    rw [← h.1, ← h.2.1]
    exact StepOK_refl s
  | cons mb t ih =>
    intro ref s s' L g h
    simp only [processMemoryBytesListLoop] at h
    rcases h1 : processAllocatedMemoryBytes opts p mb ref s with ⟨s₁, L₁, g₁⟩
    rw [h1] at h
    rcases h2 : processMemoryBytesListLoop A opts p t (ref.add A.memoryBytesTypeSize) s₁ with ⟨s₂, L₂, g₂⟩
    rw [h2] at h
    simp only [Prod.mk.injEq] at h
    rw [← h.1, ← h.2.1]
    exact StepOK_trans (stepOK_processAllocatedMemoryBytes opts p mb ref s s₁ L₁ g₁ h1)
      (ih (ref.add A.memoryBytesTypeSize) s₁ s₂ L₂ g₂ h2)

/-- `ProcessMemoryBytesList` is a well-formed step. -/
theorem stepOK_processMemoryBytesList (A : ArchSpec) (opts : GenOptions)
    (p : PassType) (l : List MemoryBytes) (s s' : TState) (ref : Ref)
    (L : List Event) (g : List (Option SnapMemoryBytesRec))
    (h : processMemoryBytesList A opts p l s = (s', ref, L, g)) :
    StepOK s s' L := by
  unfold processMemoryBytesList at h
  rcases ha : s.allocIn .memoryBytesBlock (l.length * A.memoryBytesTypeSize)
      A.memoryBytesTypeAlign with ⟨s₁, ref₁, e₁⟩
  rw [ha] at h
  simp only at h
  rcases h2 : processMemoryBytesListLoop A opts p l ref₁ s₁ with ⟨s₂, L₂, g₂⟩
  rw [h2] at h
  simp only [Prod.mk.injEq] at h
  rw [← h.1, ← h.2.2.1]
  have h0 := stepOK_allocIn s .memoryBytesBlock (l.length * A.memoryBytesTypeSize)
    A.memoryBytesTypeAlign
  rw [ha] at h0
  simp only at h0
  exact StepOK_trans h0 (stepOK_processMemoryBytesListLoop A opts p l ref₁ s₁ s₂ L₂ g₂ h2)

/-- The dedup-miss allocate-and-insert step of `ProcessRegisterSet` is a
well-formed step for the kind's own block and table. -/
theorem stepOK_reg_insert (s : TState) (kk : RegKind) (sz al : Nat)
    (bytes : ByteData) (hmiss : lookupRef (s.regMap kk) bytes = none) :
    StepOK s (((s.allocIn (regBlockId kk) sz al).1).insertReg kk bytes
        ((s.allocIn (regBlockId kk) sz al).2.1))
      [(s.allocIn (regBlockId kk) sz al).2.2,
       .regPayload kk bytes ((s.allocIn (regBlockId kk) sz al).2.1)] := by
  have hbm := allocIn_byteDataRefMap s (regBlockId kk) sz al
  have hrm := allocIn_regMap s (regBlockId kk) sz al
  have hblock : ((s.allocIn (regBlockId kk) sz al).2.1).block = regBlockId kk :=
    allocIn_ref_block s (regBlockId kk) sz al
  constructor
  · constructor
    · intro k r h
      rw [insertReg_byteDataRefMap, hbm]
      exact h
    · intro kk' k r h
      by_cases hk : kk' = kk
      · subst hk
        rw [insertReg_regMap_self]
        exact lookupRef_cons_of_miss _ _ _ _ _ (hrm kk' ▸ hmiss) (hrm kk' ▸ h)
      · rw [insertReg_regMap_other _ _ _ _ _ hk, hrm]
        exact h
  refine ⟨fun hw => ⟨fun k r h => ?_, fun kk' k r h => ?_⟩, fun hw e he => ?_,
    fun e he => ?_⟩
  · rw [insertReg_byteDataRefMap, hbm] at h
    exact hw.1 k r h
  · by_cases hk : kk' = kk
    · subst hk
      rw [insertReg_regMap_self] at h
      rcases lookupRef_cons_cases _ _ _ _ _ h with ⟨hk, hr⟩ | h
      · rw [← hr, hblock]
      · exact hw.2 kk' k r (hrm kk' ▸ h)
    · rw [insertReg_regMap_other _ _ _ _ _ hk, hrm] at h
      exact hw.2 kk' k r h
  · rcases List.mem_cons.mp he with rfl | he
    · rw [allocIn_event]
      trivial
    · rcases List.mem_singleton.mp he with rfl
      refine ⟨?_, hblock⟩
      rw [insertReg_regMap_self]
      exact lookupRef_cons_self _ _ _
  · rcases List.mem_cons.mp he with rfl | he
    · rw [allocIn_event]; rfl
    · rcases List.mem_singleton.mp he with rfl
      rfl

/-- Every successful `ProcessRegisterSet` call is a well-formed step. -/
theorem stepOK_processRegisterSet (A : ArchSpec) (p : PassType) (kk : RegKind)
    (bytes : ByteData) (ae : Bool) (s s' : TState) (r : Ref) (L : List Event)
    (w : Option RegWrite)
    (h : processRegisterSet A p kk bytes ae s = .ok (s', r, L, w)) :
    StepOK s s' L := by
  unfold processRegisterSet at h
  rcases hl : lookupRef (s.regMap kk) bytes with _ | r₀
  · rw [hl] at h
    rcases ha : s.allocIn (regBlockId kk) (A.regSize kk) (A.regAlign kk)
      with ⟨s₁, r₁, e₁⟩
    rw [ha] at h
    simp only at h
    have hstep : StepOK s (s₁.insertReg kk bytes r₁) [e₁, .regPayload kk bytes r₁] := by
      have := stepOK_reg_insert s kk (A.regSize kk) (A.regAlign kk) bytes hl
      rw [ha] at this
      exact this
    by_cases hp : p = PassType.generation
    · rw [if_pos hp] at h
      rcases bytes with _ | ⟨b, t⟩
      · simp only at h
        by_cases hae : ae = true
        · rw [if_pos hae] at h
          simp only [Except.ok.injEq, Prod.mk.injEq] at h
          rw [← h.1, ← h.2.2.1]
          exact hstep
        · rw [if_neg hae] at h
          exact absurd h (by simp)
      · simp only at h
        by_cases hd : A.deserOk kk (b :: t) = true
        · rw [if_pos hd] at h
          simp only [Except.ok.injEq, Prod.mk.injEq] at h
          rw [← h.1, ← h.2.2.1]
          exact hstep
        · rw [if_neg hd] at h
          exact absurd h (by simp)
    · rw [if_neg hp] at h
      simp only [Except.ok.injEq, Prod.mk.injEq] at h
      rw [← h.1, ← h.2.2.1]
      exact hstep
  · rw [hl] at h
    simp only [Except.ok.injEq, Prod.mk.injEq] at h
    rw [← h.1, ← h.2.2.1]
    refine ⟨Extends_refl s, fun hw => hw, fun hw e he => ?_, fun e he => ?_⟩
    · rcases List.mem_singleton.mp he with rfl
      exact ⟨hl, hw.2 kk _ _ hl⟩
    · rcases List.mem_singleton.mp he with rfl
      rfl

/-- Every successful `ProcessRegisterState` call is a well-formed step. -/
theorem stepOK_processRegisterState (A : ArchSpec) (p : PassType)
    (rs : RegisterState) (ae : Bool) (s s' : TState)
    (refs : RegisterStateRefs) (L : List Event) (c : Option Nat)
    (h : processRegisterState A p rs ae s = .ok (s', refs, L, c)) :
    StepOK s s' L := by
  unfold processRegisterState at h
  rcases h1 : processRegisterSet A p .gregs rs.gregs ae s with e₁ | ⟨s₁, gr, L₁, w₁⟩
  · rw [h1] at h; exact absurd h (by simp)
  · rw [h1] at h
    simp only at h
    rcases h2 : processRegisterSet A p .fpregs rs.fpregs ae s₁ with e₂ | ⟨s₂, fr, L₂, w₂⟩
    · rw [h2] at h; exact absurd h (by simp)
    · rw [h2] at h
      simp only [Except.ok.injEq, Prod.mk.injEq] at h
      rw [← h.1, ← h.2.2.1]
      exact StepOK_trans (stepOK_processRegisterSet A p .gregs rs.gregs ae s s₁ gr L₁ w₁ h1)
        (stepOK_processRegisterSet A p .fpregs rs.fpregs ae s₁ s₂ fr L₂ w₂ h2)

/-- `ProcessMemoryMapping` is a well-formed step. -/
theorem stepOK_processMemoryMapping (A : ArchSpec) (opts : GenOptions)
    (p : PassType) (m : MemoryMapping) (mbl : List MemoryBytes) (ref : Ref)
    (s s' : TState) (L : List Event) (g : Option SnapMemoryMappingRec)
    (h : processMemoryMapping A opts p m mbl ref s = (s', L, g)) :
    StepOK s s' L := by
  unfold processMemoryMapping at h
  rcases h1 : processMemoryBytesList A opts p mbl s with ⟨s₁, ref₁, L₁, g₁⟩
  rw [h1] at h
  simp only [Prod.mk.injEq] at h
  rw [← h.1, ← h.2.1]
  exact stepOK_processMemoryBytesList A opts p mbl s s₁ ref₁ L₁ g₁ h1

/-- The memory-mappings loop is a well-formed step. -/
theorem stepOK_processMemoryMappingsLoop (A : ArchSpec) (opts : GenOptions)
    (p : PassType) (l : List (MemoryMapping × List MemoryBytes)) :
    ∀ (ref : Ref) (s s' : TState) (L : List Event)
    (g : List (Option SnapMemoryMappingRec)),
    processMemoryMappingsLoop A opts p l ref s = (s', L, g) → StepOK s s' L := by
  induction l with
  | nil =>
    intro ref s s' L g h
    simp only [processMemoryMappingsLoop, Prod.mk.injEq] at h
    rw [← h.1, ← h.2.1]
    exact StepOK_refl s
  | cons hd t ih =>
    intro ref s s' L g h
    rcases hd with ⟨m, mbl⟩
    simp only [processMemoryMappingsLoop] at h
    rcases h1 : processMemoryMapping A opts p m mbl ref s with ⟨s₁, L₁, g₁⟩
    rw [h1] at h
    simp only at h
    rcases h2 : processMemoryMappingsLoop A opts p t (ref.add A.mappingTypeSize) s₁ with ⟨s₂, L₂, g₂⟩
    rw [h2] at h
    simp only [Prod.mk.injEq] at h
    rw [← h.1, ← h.2.1]
    exact StepOK_trans (stepOK_processMemoryMapping A opts p m mbl ref s s₁ L₁ g₁ h1)
      (ih (ref.add A.mappingTypeSize) s₁ s₂ L₂ g₂ h2)

/-- `ProcessMemoryMappings` is a well-formed step. -/
theorem stepOK_processMemoryMappings (A : ArchSpec) (opts : GenOptions)
    (p : PassType) (mappings : List MemoryMapping)
    (bpm : List (List MemoryBytes)) (s s' : TState) (ref : Ref)
    (L : List Event) (g : List (Option SnapMemoryMappingRec))
    (h : processMemoryMappings A opts p mappings bpm s = (s', ref, L, g)) :
    StepOK s s' L := by
  unfold processMemoryMappings at h
  rcases ha : s.allocIn .memoryMappingBlock (mappings.length * A.mappingTypeSize)
      A.mappingTypeAlign with ⟨s₁, ref₁, e₁⟩
  rw [ha] at h
  simp only at h
  rcases h2 : processMemoryMappingsLoop A opts p (mappings.zip bpm) ref₁ s₁ with ⟨s₂, L₂, g₂⟩
  rw [h2] at h
  simp only [Prod.mk.injEq] at h
  rw [← h.1, ← h.2.2.1]
  have h0 := stepOK_allocIn s .memoryMappingBlock
    (mappings.length * A.mappingTypeSize) A.mappingTypeAlign
  rw [ha] at h0
  simp only at h0
  exact StepOK_trans h0 (stepOK_processMemoryMappingsLoop A opts p (mappings.zip bpm) ref₁ s₁ s₂ L₂ g₂ h2)

/-- Every successful Snapshot `ProcessAllocated` call is a well-formed
step. -/
theorem stepOK_processAllocatedSnapshot (A : ArchSpec) (opts : GenOptions)
    (p : PassType) (snap : Snapshot) (ref : Ref) (s s' : TState)
    (L : List Event) (g : Option SnapRec)
    (h : processAllocatedSnapshot A opts p snap ref s = .ok (s', L, g)) :
    StepOK s s' L := by
  unfold processAllocatedSnapshot at h
  by_cases harch : snap.architectureId ≠ A.archId
  · rw [if_pos harch] at h
    exact absurd h (by simp)
  · rw [if_neg harch] at h
    rcases ha : s.allocIn .stringBlock (snap.id.length + 1) 1 with ⟨s₁, idRef, eId⟩
    rw [ha] at h
    simp only at h
    have h0 := stepOK_allocIn s .stringBlock (snap.id.length + 1) 1
    rw [ha] at h0
    simp only at h0
    rcases hm : processMemoryMappings A opts p snap.memoryMappings
      (splitBytesByMapping snap.memoryMappings snap.memoryBytes) s₁ with ⟨s₂, mmRef, L₂, gm⟩
    rw [hm] at h
    simp only at h
    have hstep₂ := stepOK_processMemoryMappings A opts p snap.memoryMappings
      (splitBytesByMapping snap.memoryMappings snap.memoryBytes) s₁ s₂ mmRef L₂ gm hm
    rcases hes : snap.expectedEndStates with _ | ⟨endState, rest⟩
    · rw [hes] at h
      exact absurd h (by simp)
    · rw [hes] at h
      rcases rest with _ | ⟨e2, r2⟩
      · simp only at h
        rcases hb : processMemoryBytesList A opts p endState.memoryBytes s₂ with ⟨s₃, esRef, L₃, gb⟩
        rw [hb] at h
        simp only at h
        have hstep₃ := stepOK_processMemoryBytesList A opts p endState.memoryBytes
          s₂ s₃ esRef L₃ gb hb
        rcases hr1 : processRegisterState A p snap.registers false s₃ with e₁ | ⟨s₄, regRefs, L₄, rmc⟩
        · rw [hr1] at h
          exact absurd h (by simp)
        · rw [hr1] at h
          simp only at h
          have hstep₄ := stepOK_processRegisterState A p snap.registers false s₃
            s₄ regRefs L₄ rmc hr1
          rcases hr2 : processRegisterState A p endState.registers true s₄ with e₂ | ⟨s₅, esRegRefs, L₅, esrmc⟩
          · rw [hr2] at h
            exact absurd h (by simp)
          · rw [hr2] at h
            simp only at h
            have hstep₅ := stepOK_processRegisterState A p endState.registers true
              s₄ s₅ esRegRefs L₅ esrmc hr2
            have hall : StepOK s s₅ (eId :: L₂ ++ L₃ ++ L₄ ++ L₅) := by
              have := StepOK_trans (StepOK_trans (StepOK_trans (StepOK_trans h0 hstep₂) hstep₃) hstep₄) hstep₅
              simpa using this
            by_cases hp : p = PassType.generation
            · rw [if_pos hp] at h
              by_cases hck : A.deserializeRegisterChecksumOk endState.registerChecksum = true
              · rw [if_pos hck] at h
                simp only [Except.ok.injEq, Prod.mk.injEq] at h
                rw [← h.1, ← h.2.1]
                exact hall
              · rw [if_neg hck] at h
                exact absurd h (by simp)
            · rw [if_neg hp] at h
              simp only [Except.ok.injEq, Prod.mk.injEq] at h
              rw [← h.1, ← h.2.1]
              exact hall
      · simp only at h
        exact absurd h (by simp)

/-- Every successful snapshot-loop run is a well-formed step. -/
theorem stepOK_processSnapshotsLoop (A : ArchSpec) (opts : GenOptions)
    (p : PassType) (l : List Snapshot) : ∀ (ref : Ref) (s s' : TState)
    (L : List Event) (g : List (Option SnapRec)),
    processSnapshotsLoop A opts p l ref s = .ok (s', L, g) → StepOK s s' L := by
  induction l with
  | nil =>
    intro ref s s' L g h
    simp only [processSnapshotsLoop, Except.ok.injEq, Prod.mk.injEq] at h
    rw [← h.1, ← h.2.1]
    exact StepOK_refl s
  | cons snap t ih =>
    intro ref s s' L g h
    simp only [processSnapshotsLoop] at h
    rcases h1 : processAllocatedSnapshot A opts p snap ref s with e₁ | ⟨s₁, L₁, g₁⟩
    · rw [h1] at h
      exact absurd h (by simp)
    · rw [h1] at h
      simp only at h
      rcases h2 : processSnapshotsLoop A opts p t (ref.add A.snapTypeSize) s₁ with e₂ | ⟨s₂, L₂, g₂⟩
      · rw [h2] at h
        exact absurd h (by simp)
      · rw [h2] at h
        simp only [Except.ok.injEq, Prod.mk.injEq] at h
        rw [← h.1, ← h.2.1]
        exact StepOK_trans (stepOK_processAllocatedSnapshot A opts p snap ref s s₁ L₁ g₁ h1)
          (ih (ref.add A.snapTypeSize) s₁ s₂ L₂ g₂ h2)

/-- The ghost event of a sub-block merge. -/
theorem mergeInto_event (t : TState) (b : BlockId) :
    (mergeInto t b).2.2 =
      .merge b ((t.get b).size) ((t.get b).requiredAlignment)
        (alignUp t.mainBlock.size ((t.get b).requiredAlignment)) := rfl

/-- The main-block size after a sub-block merge. -/
theorem mergeInto_mainSize (t : TState) (b : BlockId) :
    (mergeInto t b).1.mainBlock.size =
      alignUp t.mainBlock.size ((t.get b).requiredAlignment) + (t.get b).size := by
  cases b <;> rfl

/-- One merge step does not touch the byte-data dedup table. -/
theorem mergeInto_byteDataRefMap (t : TState) (b : BlockId) :
    (mergeInto t b).1.byteDataRefMap = t.byteDataRefMap := rfl

/-- One merge step does not touch the register dedup tables. -/
theorem mergeInto_regMap (t : TState) (b : BlockId) (kk : RegKind) :
    (mergeInto t b).1.regMap kk = t.regMap kk := by
  cases kk <;> rfl

/-- The merge fold does not touch the byte-data dedup table. -/
theorem mergeFold_byteDataRefMap (l : List BlockId) :
    ∀ (t : TState) (acc : List Event),
    ((l.foldl (fun (acc : TState × List Event) sub =>
        let (s₁, _, e) := mergeInto acc.1 sub
        (s₁, acc.2 ++ [e])) (t, acc)).1).byteDataRefMap = t.byteDataRefMap := by
  induction l with
  | nil => intro t acc; rfl
  | cons b l ih =>
    intro t acc
    rw [List.foldl_cons]
    simp only
    rcases hm : mergeInto t b with ⟨t₁, r₁, e₁⟩
    simp only
    rw [ih t₁ (acc ++ [e₁])]
    have := mergeInto_byteDataRefMap t b
    rw [hm] at this
    exact this

/-- The merge fold does not touch the register dedup tables. -/
theorem mergeFold_regMap (l : List BlockId) :
    ∀ (t : TState) (acc : List Event) (kk : RegKind),
    ((l.foldl (fun (acc : TState × List Event) sub =>
        let (s₁, _, e) := mergeInto acc.1 sub
        (s₁, acc.2 ++ [e])) (t, acc)).1).regMap kk = t.regMap kk := by
  induction l with
  | nil => intro t acc kk; rfl
  | cons b l ih =>
    intro t acc kk
    rw [List.foldl_cons]
    simp only
    rcases hm : mergeInto t b with ⟨t₁, r₁, e₁⟩
    simp only
    rw [ih t₁ (acc ++ [e₁]) kk]
    have := mergeInto_regMap t b kk
    rw [hm] at this
    exact this

/-- Merging does not touch the byte-data dedup table. -/
theorem mergeAll_byteDataRefMap (t : TState) :
    (mergeAll t).1.byteDataRefMap = t.byteDataRefMap :=
  mergeFold_byteDataRefMap mergeOrder t []

/-- Merging does not touch the register dedup tables. -/
theorem mergeAll_regMap (t : TState) (kk : RegKind) :
    (mergeAll t).1.regMap kk = t.regMap kk :=
  mergeFold_regMap mergeOrder t [] kk

/-- Every event emitted by the merge fold beyond the accumulator is a
merge event. -/
theorem mergeFold_isMerge (l : List BlockId) : ∀ (t : TState) (acc : List Event),
    ∀ e ∈ (l.foldl (fun (acc : TState × List Event) sub =>
        let (s₁, _, e) := mergeInto acc.1 sub
        (s₁, acc.2 ++ [e])) (t, acc)).2,
      e ∈ acc ∨ e.isMerge = true := by
  induction l with
  | nil => intro t acc e he; exact Or.inl he
  | cons b l ih =>
    intro t acc e he
    rw [List.foldl_cons] at he
    simp only at he
    rcases hm : mergeInto t b with ⟨t₁, r₁, e₁⟩
    rw [hm] at he
    simp only at he
    rcases ih t₁ (acc ++ [e₁]) e he with h | h
    · rcases List.mem_append.mp h with h | h
      · exact Or.inl h
      · right
        rcases List.mem_singleton.mp h with rfl
        have hev := mergeInto_event t b
        rw [hm] at hev
        simp only at hev
        rw [hev]
        rfl
    · exact Or.inr h

/-- A merge event trivially satisfies `eventOK`. -/
theorem eventOK_of_isMerge (t : TState) (e : Event) (h : e.isMerge = true) :
    eventOK t e := by
  cases e with
  | merge => trivial
  | alloc => trivial
  | mbPayload => exact absurd h (by simp [Event.isMerge])
  | regPayload => exact absurd h (by simp [Event.isMerge])

/-- The dedup invariant of a successful `Process` run: starting from
well-formed tables, the final tables are well-formed and every payload
event in the run's log is bound, with its logged Ref, in the final
tables — in the sub-block that table allocates from. -/
theorem process_dedup_invariant (A : ArchSpec) (opts : GenOptions)
    (p : PassType) (snaps : List Snapshot) (s s' : TState)
    (z : List (String × Nat)) (L : List Event) (g : Option CorpusImage)
    (h : process A opts p snaps s = .ok (s', z, L, g)) (hw : MapsWF s) :
    MapsWF s' ∧ ∀ e ∈ L, eventOK s' e := by
  unfold process at h
  rcases ha1 : s.allocIn .snapBlock A.corpusTypeSize A.corpusTypeAlign with ⟨s₁, corpusRef, e₁⟩
  rw [ha1] at h
  simp only at h
  rcases ha2 : s₁.allocIn .snapBlock (snaps.length * A.ptrSize) A.ptrAlign with ⟨s₂, elemsRef, e₂⟩
  rw [ha2] at h
  simp only at h
  rcases ha3 : s₂.allocIn .snapBlock (snaps.length * A.snapTypeSize) A.snapTypeAlign with ⟨s₃, snapsRef, e₃⟩
  rw [ha3] at h
  simp only at h
  rcases h4 : processSnapshotsLoop A opts p snaps snapsRef s₃ with e₄ | ⟨s₄, L₄, recs⟩
  · rw [h4] at h
    exact absurd h (by simp)
  · rw [h4] at h
    simp only at h
    rcases h5 : mergeAll s₄ with ⟨s₅, ME⟩
    rw [h5] at h
    simp only [Except.ok.injEq, Prod.mk.injEq] at h
    obtain ⟨hs', hz, hL, hg⟩ := h
    subst hs' hL
    have st1 := stepOK_allocIn s .snapBlock A.corpusTypeSize A.corpusTypeAlign
    rw [ha1] at st1
    simp only at st1
    have st2 := stepOK_allocIn s₁ .snapBlock (snaps.length * A.ptrSize) A.ptrAlign
    rw [ha2] at st2
    simp only at st2
    have st3 := stepOK_allocIn s₂ .snapBlock (snaps.length * A.snapTypeSize) A.snapTypeAlign
    rw [ha3] at st3
    simp only at st3
    have st4 := stepOK_processSnapshotsLoop A opts p snaps snapsRef s₃ s₄ L₄ recs h4
    have chain : StepOK s s₄ ([e₁] ++ ([e₂] ++ ([e₃] ++ L₄))) :=
      StepOK_trans st1 (StepOK_trans st2 (StepOK_trans st3 st4))
    have hb5 : s₅.byteDataRefMap = s₄.byteDataRefMap := by
      have := mergeAll_byteDataRefMap s₄
      rw [h5] at this
      exact this
    have hr5 : ∀ kk, s₅.regMap kk = s₄.regMap kk := by
      intro kk
      have := mergeAll_regMap s₄ kk
      rw [h5] at this
      exact this
    have hx45 : Extends s₄ s₅ :=
      ⟨fun k r hh => by rw [hb5]; exact hh, fun kk k r hh => by rw [hr5 kk]; exact hh⟩
    have hw4 : MapsWF s₄ := chain.2.1 hw
    have hw5 : MapsWF s₅ :=
      ⟨fun k r hh => hw4.1 k r (by rw [← hb5]; exact hh),
       fun kk k r hh => hw4.2 kk k r (by rw [← hr5 kk]; exact hh)⟩
    refine ⟨hw5, fun e he => ?_⟩
    rcases List.mem_cons.mp he with rfl | he
    · have := allocIn_event s .snapBlock A.corpusTypeSize A.corpusTypeAlign
      rw [ha1] at this
      simp only at this
      rw [this]
      trivial
    rcases List.mem_cons.mp he with rfl | he
    · have := allocIn_event s₁ .snapBlock (snaps.length * A.ptrSize) A.ptrAlign
      rw [ha2] at this
      simp only at this
      rw [this]
      trivial
    rcases List.mem_cons.mp he with rfl | he
    · have := allocIn_event s₂ .snapBlock (snaps.length * A.snapTypeSize) A.snapTypeAlign
      rw [ha3] at this
      simp only at this
      rw [this]
      trivial
    rcases List.mem_append.mp he with he | he
    · exact eventOK_mono hx45 (chain.2.2.1 hw e (by simp [he]))
    · have hme : ME = (mergeAll s₄).2 := by rw [h5]
      have := mergeFold_isMerge mergeOrder s₄ [] e (by
        rw [hme] at he
        exact he)
      rcases this with hfalse | hmerge
      · exact absurd hfalse (by simp)
      · exact eventOK_of_isMerge s₅ e hmerge

/-- C2: within one generation run (started, as after
`PrepareSnapGeneration`, with empty dedup tables): any two memory-bytes
payloads with equal byte contents resolve to one and the same allocation
Ref, which lies in `byte_data_block` or `page_data_block`; any two
serialized register payloads of the same kind with equal bytes resolve
to one and the same Ref; and a GPR payload and an FPR payload never
share storage — their Refs always differ, even when the serialized bytes
are equal, because each kind has its own dedup map and its own block. -/
theorem dedup_sharing_invariant (A : ArchSpec) (opts : GenOptions)
    (snaps : List Snapshot) (s₀ : TState)
    (hmaps : s₀.byteDataRefMap = [] ∧ s₀.fpregsRefMap = [] ∧ s₀.gregsRefMap = [])
    (h : isOkE (process A opts .generation snaps s₀) = true) :
    (∀ b r b' r',
      Event.mbPayload b r ∈ resultLogOf (process A opts .generation snaps s₀) →
      Event.mbPayload b' r' ∈ resultLogOf (process A opts .generation snaps s₀) →
      b = b' → r = r') ∧
    (∀ b r,
      Event.mbPayload b r ∈ resultLogOf (process A opts .generation snaps s₀) →
      r.block = BlockId.byteDataBlock ∨ r.block = BlockId.pageDataBlock) ∧
    (∀ kk b r b' r',
      Event.regPayload kk b r ∈ resultLogOf (process A opts .generation snaps s₀) →
      Event.regPayload kk b' r' ∈ resultLogOf (process A opts .generation snaps s₀) →
      b = b' → r = r') ∧
    (∀ b r b' r',
      Event.regPayload .gregs b r ∈ resultLogOf (process A opts .generation snaps s₀) →
      Event.regPayload .fpregs b' r' ∈ resultLogOf (process A opts .generation snaps s₀) →
      r ≠ r') := by
  have hw0 : MapsWF s₀ := by
    constructor
    · intro k r hh
      rw [hmaps.1] at hh
      exact absurd hh (by simp [lookupRef])
    · intro kk k r hh
      cases kk with
      | gregs =>
        rw [show s₀.regMap RegKind.gregs = s₀.gregsRefMap from rfl, hmaps.2.2] at hh
        exact absurd hh (by simp [lookupRef])
      | fpregs =>
        rw [show s₀.regMap RegKind.fpregs = s₀.fpregsRefMap from rfl, hmaps.2.1] at hh
        exact absurd hh (by simp [lookupRef])
  rcases hR : process A opts .generation snaps s₀ with e | ⟨s', z, L, g⟩
  · rw [hR] at h
    exact absurd h (by simp [isOkE])
  · obtain ⟨hw', hev⟩ :=
      process_dedup_invariant A opts .generation snaps s₀ s' z L g hR hw0
    simp only [resultLogOf]
    refine ⟨fun b r b' r' h1 h2 hb => ?_, fun b r h1 => ?_,
      fun kk b r b' r' h1 h2 hb => ?_, fun b r b' r' h1 h2 => ?_⟩
    · have e1 := hev _ h1
      have e2 := hev _ h2
      subst hb
      have : some r = some r' := e1.1.symm.trans e2.1
      simpa using this
    · exact (hev _ h1).2
    · have e1 := hev _ h1
      have e2 := hev _ h2
      subst hb
      have : some r = some r' := e1.1.symm.trans e2.1
      simpa using this
    · have e1 := hev _ h1
      have e2 := hev _ h2
      intro hrr
      rw [hrr] at e1
      obtain ⟨l1, hb1⟩ := e1
      obtain ⟨l2, hb2⟩ := e2
      have hb1' : r'.block = BlockId.gregsBlock := hb1
      have hb2' : r'.block = BlockId.fpregsBlock := hb2
      rw [hb1'] at hb2'
      exact absurd hb2' (by simp)

/-- Witness for C2: a run over two snapshots sharing payloads, where the
shared memory-bytes payload is logged with a `byte_data_block` Ref and
the GPR and FPR Refs differ. -/
theorem dedup_sharing_invariant_witness :
    Event.mbPayload [1, 2, 3] ⟨BlockId.byteDataBlock, 0⟩ ∈
      resultLogOf (process sampleArch ⟨true⟩ .generation
        [sampleSnapshot, sampleSnapshot] initState) ∧
    (⟨BlockId.gregsBlock, 0⟩ : Ref) ≠ ⟨BlockId.fpregsBlock, 0⟩ :=
  ⟨by decide,
   (dedup_sharing_invariant sampleArch ⟨true⟩ [sampleSnapshot, sampleSnapshot]
       initState ⟨rfl, rfl, rfl⟩ (by decide)).2.2.2 [9] _ [8, 8] _
     (by decide) (by decide)⟩

/-- The sub-blocks, in order, of the merge events of a log. -/
def mergeSubsOf (L : List Event) : List BlockId :=
  L.filterMap fun e =>
    match e with
    | .merge sub _ _ _ => some sub
    | _ => none

/-- The main-block offsets, in order, of the merge events of a log. -/
def mergeOffsetsOf (L : List Event) : List Nat :=
  L.filterMap fun e =>
    match e with
    | .merge _ _ _ off => some off
    | _ => none

/-- Which sub-blocks contain pointers (spec §4.2): only `snap_block` and
`memory_bytes_block` hold pointer fields. -/
def blockHasPointers : BlockId → Bool
  | .snapBlock => true
  | .memoryBytesBlock => true
  | _ => false

theorem mergeSubsOf_cons_nonmerge (e : Event) (L : List Event)
    (h : e.isMerge = false) : mergeSubsOf (e :: L) = mergeSubsOf L := by
  cases e <;> simp_all [mergeSubsOf, Event.isMerge]

theorem mergeOffsetsOf_cons_nonmerge (e : Event) (L : List Event)
    (h : e.isMerge = false) : mergeOffsetsOf (e :: L) = mergeOffsetsOf L := by
  cases e <;> simp_all [mergeOffsetsOf, Event.isMerge]

theorem mergeSubsOf_append_nonmerge (L₁ L₂ : List Event)
    (h : ∀ e ∈ L₁, e.isMerge = false) :
    mergeSubsOf (L₁ ++ L₂) = mergeSubsOf L₂ := by
  induction L₁ with
  | nil => rfl
  | cons e t ih =>
    rw [List.cons_append, mergeSubsOf_cons_nonmerge e _ (h e (by simp))]
    exact ih fun e' he' => h e' (by simp [he'])

theorem mergeOffsetsOf_append_nonmerge (L₁ L₂ : List Event)
    (h : ∀ e ∈ L₁, e.isMerge = false) :
    mergeOffsetsOf (L₁ ++ L₂) = mergeOffsetsOf L₂ := by
  induction L₁ with
  | nil => rfl
  | cons e t ih =>
    rw [List.cons_append, mergeOffsetsOf_cons_nonmerge e _ (h e (by simp))]
    exact ih fun e' he' => h e' (by simp [he'])

theorem mergeSubsOf_append_merge (L : List Event) (b : BlockId)
    (sz al off : Nat) :
    mergeSubsOf (L ++ [.merge b sz al off]) = mergeSubsOf L ++ [b] := by
  simp [mergeSubsOf, List.filterMap_append]

theorem mergeOffsetsOf_append_merge (L : List Event) (b : BlockId)
    (sz al off : Nat) :
    mergeOffsetsOf (L ++ [.merge b sz al off]) = mergeOffsetsOf L ++ [off] := by
  simp [mergeOffsetsOf, List.filterMap_append]

/-- The merge fold appends exactly the folded sub-block ids to the merge
events of the accumulator. -/
theorem mergeFold_subsOf (l : List BlockId) : ∀ (t : TState) (acc : List Event),
    mergeSubsOf ((l.foldl (fun (acc : TState × List Event) sub =>
        let (s₁, _, e) := mergeInto acc.1 sub
        (s₁, acc.2 ++ [e])) (t, acc)).2) = mergeSubsOf acc ++ l := by
  induction l with
  | nil => intro t acc; simp
  | cons b l ih =>
    intro t acc
    rw [List.foldl_cons]
    simp only
    rcases hm : mergeInto t b with ⟨t₁, r₁, e₁⟩
    simp only
    rw [ih t₁ (acc ++ [e₁])]
    have hev := mergeInto_event t b
    rw [hm] at hev
    simp only at hev
    rw [hev, mergeSubsOf_append_merge]
    simp

/-- The merge fold keeps the offsets of the merge events nondecreasing:
each merge allocates at or above the main block's running size. -/
theorem mergeFold_offsets_chain (l : List BlockId) :
    ∀ (t : TState) (acc : List Event),
    List.Chain' (fun a b => a ≤ b) (mergeOffsetsOf acc) →
    (∀ o ∈ mergeOffsetsOf acc, o ≤ t.mainBlock.size) →
    List.Chain' (fun a b => a ≤ b)
      (mergeOffsetsOf ((l.foldl (fun (acc : TState × List Event) sub =>
        let (s₁, _, e) := mergeInto acc.1 sub
        (s₁, acc.2 ++ [e])) (t, acc)).2)) := by
  induction l with
  | nil => intro t acc hchain hbound; exact hchain
  | cons b l ih =>
    intro t acc hchain hbound
    rw [List.foldl_cons]
    simp only
    rcases hm : mergeInto t b with ⟨t₁, r₁, e₁⟩
    simp only
    have hev := mergeInto_event t b
    rw [hm] at hev
    simp only at hev
    have hsize := mergeInto_mainSize t b
    rw [hm] at hsize
    simp only at hsize
    apply ih t₁ (acc ++ [e₁])
    · rw [hev, mergeOffsetsOf_append_merge]
      apply List.Chain'.append hchain (List.chain'_singleton _)
      intro x hx y hy
      simp only [List.head?_cons, Option.mem_def, Option.some.injEq] at hy
      subst hy
      have hxmem : x ∈ mergeOffsetsOf acc := List.mem_of_mem_getLast? hx
      exact le_trans (hbound x hxmem) (le_alignUp _ _)
    · intro o ho
      rw [hev, mergeOffsetsOf_append_merge] at ho
      rw [hsize]
      rcases List.mem_append.mp ho with ho | ho
      · exact le_trans (hbound o ho)
          (le_trans (le_alignUp _ _) (Nat.le_add_right _ _))
      · rcases List.mem_singleton.mp ho with rfl
        exact Nat.le_add_right _ _

/-- A successful `Process` run merges the sub-blocks into the main block
exactly in the fixed order, at nondecreasing main-block offsets. -/
theorem process_merge_order (A : ArchSpec) (opts : GenOptions) (p : PassType)
    (snaps : List Snapshot) (s s' : TState) (z : List (String × Nat))
    (L : List Event) (g : Option CorpusImage)
    (h : process A opts p snaps s = .ok (s', z, L, g)) :
    mergeSubsOf L = mergeOrder ∧
    List.Chain' (fun a b => a ≤ b) (mergeOffsetsOf L) := by
  unfold process at h
  rcases ha1 : s.allocIn .snapBlock A.corpusTypeSize A.corpusTypeAlign with ⟨s₁, corpusRef, e₁⟩
  rw [ha1] at h
  simp only at h
  rcases ha2 : s₁.allocIn .snapBlock (snaps.length * A.ptrSize) A.ptrAlign with ⟨s₂, elemsRef, e₂⟩
  rw [ha2] at h
  simp only at h
  rcases ha3 : s₂.allocIn .snapBlock (snaps.length * A.snapTypeSize) A.snapTypeAlign with ⟨s₃, snapsRef, e₃⟩
  rw [ha3] at h
  simp only at h
  rcases h4 : processSnapshotsLoop A opts p snaps snapsRef s₃ with e₄ | ⟨s₄, L₄, recs⟩
  · rw [h4] at h
    exact absurd h (by simp)
  · rw [h4] at h
    simp only at h
    rcases h5 : mergeAll s₄ with ⟨s₅, ME⟩
    rw [h5] at h
    simp only [Except.ok.injEq, Prod.mk.injEq] at h
    obtain ⟨hs', hz, hL, hg⟩ := h
    subst hL
    have st4 := stepOK_processSnapshotsLoop A opts p snaps snapsRef s₃ s₄ L₄ recs h4
    have hm1 : e₁.isMerge = false := by
      have := allocIn_event s .snapBlock A.corpusTypeSize A.corpusTypeAlign
      rw [ha1] at this
      simp only at this
      rw [this]
      rfl
    have hm2 : e₂.isMerge = false := by
      have := allocIn_event s₁ .snapBlock (snaps.length * A.ptrSize) A.ptrAlign
      rw [ha2] at this
      simp only at this
      rw [this]
      rfl
    have hm3 : e₃.isMerge = false := by
      have := allocIn_event s₂ .snapBlock (snaps.length * A.snapTypeSize) A.snapTypeAlign
      rw [ha3] at this
      simp only at this
      rw [this]
      rfl
    have hME : ME = (mergeAll s₄).2 := by rw [h5]
    have hsubs : mergeSubsOf (e₁ :: e₂ :: e₃ :: (L₄ ++ ME)) = mergeSubsOf ME := by
      rw [mergeSubsOf_cons_nonmerge _ _ hm1, mergeSubsOf_cons_nonmerge _ _ hm2,
        mergeSubsOf_cons_nonmerge _ _ hm3,
        mergeSubsOf_append_nonmerge _ _ st4.2.2.2]
    have hoffs : mergeOffsetsOf (e₁ :: e₂ :: e₃ :: (L₄ ++ ME)) = mergeOffsetsOf ME := by
      rw [mergeOffsetsOf_cons_nonmerge _ _ hm1, mergeOffsetsOf_cons_nonmerge _ _ hm2,
        mergeOffsetsOf_cons_nonmerge _ _ hm3,
        mergeOffsetsOf_append_nonmerge _ _ st4.2.2.2]
    constructor
    · rw [hsubs, hME]
      have := mergeFold_subsOf mergeOrder s₄ []
      simpa [mergeAll, mergeSubsOf] using this
    · rw [hoffs, hME]
      have := mergeFold_offsets_chain mergeOrder s₄ []
        (by rw [show mergeOffsetsOf ([] : List Event) = [] from rfl]
            exact List.chain'_nil)
        (by intro o ho
            rw [show mergeOffsetsOf ([] : List Event) = [] from rfl] at ho
            exact absurd ho (by simp))
      simpa [mergeAll] using this

/-- C6: in both passes, the sub-blocks are merged into the main block in
exactly the order `snap_block, memory_bytes_block, memory_mapping_block,
byte_data_block, string_block, fpregs_block, gregs_block,
page_data_block`, at nondecreasing main-block offsets, so the two
pointer-bearing regions precede all pointer-free regions in the emitted
image. -/
theorem merge_order_pointer_bearing_first (A : ArchSpec) (opts : GenOptions)
    (p : PassType) (snaps : List Snapshot) (s : TState)
    (h : isOkE (process A opts p snaps s) = true) :
    mergeSubsOf (resultLogOf (process A opts p snaps s)) =
      [BlockId.snapBlock, BlockId.memoryBytesBlock, BlockId.memoryMappingBlock,
       BlockId.byteDataBlock, BlockId.stringBlock, BlockId.fpregsBlock,
       BlockId.gregsBlock, BlockId.pageDataBlock] ∧
    List.Chain' (fun a b => a ≤ b)
      (mergeOffsetsOf (resultLogOf (process A opts p snaps s))) ∧
    List.Pairwise (fun a b => blockHasPointers a = true ∨ blockHasPointers b = false)
      (mergeSubsOf (resultLogOf (process A opts p snaps s))) := by
  rcases hR : process A opts p snaps s with e | ⟨s', z, L, g⟩
  · rw [hR] at h
    exact absurd h (by simp [isOkE])
  · obtain ⟨hsubs, hchain⟩ := process_merge_order A opts p snaps s s' z L g hR
    simp only [resultLogOf]
    refine ⟨?_, hchain, ?_⟩
    · rw [hsubs]
      rfl
    · rw [hsubs]
      decide

/-- Witness for C6 at a concrete run. -/
theorem merge_order_pointer_bearing_first_witness :
    isOkE (process sampleArch ⟨true⟩ .layout [sampleSnapshot] initState) = true ∧
    (mergeSubsOf (resultLogOf (process sampleArch ⟨true⟩ .layout [sampleSnapshot] initState)) =
      [BlockId.snapBlock, BlockId.memoryBytesBlock, BlockId.memoryMappingBlock,
       BlockId.byteDataBlock, BlockId.stringBlock, BlockId.fpregsBlock,
       BlockId.gregsBlock, BlockId.pageDataBlock] ∧
    List.Chain' (fun a b => a ≤ b)
      (mergeOffsetsOf (resultLogOf (process sampleArch ⟨true⟩ .layout [sampleSnapshot] initState))) ∧
    List.Pairwise (fun a b => blockHasPointers a = true ∨ blockHasPointers b = false)
      (mergeSubsOf (resultLogOf (process sampleArch ⟨true⟩ .layout [sampleSnapshot] initState)))) :=
  ⟨by decide,
   merge_order_pointer_bearing_first sampleArch ⟨true⟩ .layout [sampleSnapshot]
     initState (by decide)⟩

/-- Processing a snapshot whose expected-end-state list does not have
length one always halts with a fatal assertion (`DCHECK_EQ`, fatal in
debug builds), in either pass, whatever the state. -/
theorem processAllocatedSnapshot_not_one_endstate (A : ArchSpec)
    (opts : GenOptions) (p : PassType) (snap : Snapshot) (ref : Ref)
    (s : TState) (h : snap.expectedEndStates.length ≠ 1) :
    isOkE (processAllocatedSnapshot A opts p snap ref s) = false := by
  unfold processAllocatedSnapshot
  by_cases harch : snap.architectureId ≠ A.archId
  · rw [if_pos harch]
    rfl
  · rw [if_neg harch]
    rcases hes : snap.expectedEndStates with _ | ⟨es1, rest⟩
    · rfl
    · rcases rest with _ | ⟨es2, rest2⟩
      · simp_all
      · rfl

/-- The snapshot loop halts whenever any snapshot in the list has an
expected-end-state list of length different from one. -/
theorem processSnapshotsLoop_not_one_endstate (A : ArchSpec)
    (opts : GenOptions) (p : PassType) (l : List Snapshot) :
    ∀ (ref : Ref) (s : TState) (snap : Snapshot), snap ∈ l →
    snap.expectedEndStates.length ≠ 1 →
    isOkE (processSnapshotsLoop A opts p l ref s) = false := by
  induction l with
  | nil =>
    intro ref s snap hmem _
    exact absurd hmem (by simp)
  | cons hd t ih =>
    intro ref s snap hmem hlen
    simp only [processSnapshotsLoop]
    rcases List.mem_cons.mp hmem with rfl | hmem
    · have hbad := processAllocatedSnapshot_not_one_endstate A opts p snap ref s hlen
      rcases hps : processAllocatedSnapshot A opts p snap ref s with e | ok
      · rfl
      · rw [hps] at hbad
        exact absurd hbad (by simp [isOkE])
    · rcases hps : processAllocatedSnapshot A opts p hd ref s with e | ⟨s₁, L₁, g₁⟩
      · rfl
      · simp only
        have hrec := ih (ref.add A.snapTypeSize) s₁ snap hmem hlen
        rcases hloop : processSnapshotsLoop A opts p t (ref.add A.snapTypeSize) s₁ with e | ok
        · rfl
        · rw [hloop] at hrec
          exact absurd hrec (by simp [isOkE])

/-- C7: for every snapshot in the input list whose list of expected end
states has length different from one, `Process` halts with a fatal
assertion in either pass — `expected_end_states.len() == 1` is an
enforced precondition of the engine (the caller must pre-normalize). -/
theorem requires_exactly_one_end_state (A : ArchSpec) (opts : GenOptions)
    (p : PassType) (snaps : List Snapshot) (s : TState) (snap : Snapshot)
    (hmem : snap ∈ snaps) (hlen : snap.expectedEndStates.length ≠ 1) :
    isOkE (process A opts p snaps s) = false := by
  unfold process
  simp only
  generalize ((s.allocIn BlockId.snapBlock A.corpusTypeSize A.corpusTypeAlign).1.allocIn
      BlockId.snapBlock (snaps.length * A.ptrSize) A.ptrAlign).1.allocIn
      BlockId.snapBlock (snaps.length * A.snapTypeSize) A.snapTypeAlign = X
  rcases hloop : processSnapshotsLoop A opts p snaps X.2.1 X.1 with e | ok
  · rfl
  · have hrec := processSnapshotsLoop_not_one_endstate A opts p snaps X.2.1 X.1 snap hmem hlen
    rw [hloop] at hrec
    exact absurd hrec (by simp [isOkE])

/-- A snapshot with zero expected end states, used to exhibit the fatal
end-state-count check concretely. -/
def badEndStateSnapshot : Snapshot :=
  { sampleSnapshot with expectedEndStates := [] }

/-- Witness for C7 at a concrete run. -/
theorem requires_exactly_one_end_state_witness :
    badEndStateSnapshot ∈ [badEndStateSnapshot] ∧
    badEndStateSnapshot.expectedEndStates.length ≠ 1 ∧
    isOkE (process sampleArch ⟨true⟩ .layout [badEndStateSnapshot] initState) = false :=
  ⟨by simp, by decide,
   requires_exactly_one_end_state sampleArch ⟨true⟩ .layout [badEndStateSnapshot]
     initState badEndStateSnapshot (by simp) (by decide)⟩

/-- C10: the fatal checks of `ProcessRegisterSet` run only on a dedup
miss and only in the generation pass.  A payload whose bytes equal a
previously processed payload of the same register kind returns the
cached Ref with no check and no state change at all — in particular an
empty start-state payload (`allow_empty = false`, undeserializable) is
accepted on a hit; and the layout pass never fails regardless of the
payload. -/
theorem register_checks_only_on_miss_in_generation (A : ArchSpec) :
    (∀ (p : PassType) (kk : RegKind) (bytes : ByteData) (ae : Bool)
        (s : TState) (r : Ref),
      lookupRef (s.regMap kk) bytes = some r →
      processRegisterSet A p kk bytes ae s =
        .ok (s, r, [.regPayload kk bytes r], none)) ∧
    (∀ (kk : RegKind) (bytes : ByteData) (ae : Bool) (s : TState),
      isOkE (processRegisterSet A .layout kk bytes ae s) = true) := by
  constructor
  · intro p kk bytes ae s r hl
    unfold processRegisterSet
    rw [hl]
  · intro kk bytes ae s
    unfold processRegisterSet
    rcases hl : lookupRef (s.regMap kk) bytes with _ | r
    · rcases ha : s.allocIn (regBlockId kk) (A.regSize kk) (A.regAlign kk)
        with ⟨s₁, r₁, e₁⟩
      simp [isOkE]
    · rfl

/-- A state whose gregs dedup table already holds a binding for the
empty payload, as left behind by an earlier admitted empty end-state
register set. -/
def hitState : TState :=
  { initState with gregsRefMap := [([], ⟨BlockId.gregsBlock, 0⟩)] }

/-- Witness for C10: an empty start-state payload (`allow_empty = false`,
not deserializable under `sampleArch`) is accepted on a generation-pass
dedup hit, returning the cached Ref. -/
theorem register_checks_only_on_miss_in_generation_witness :
    lookupRef (hitState.regMap .gregs) [] = some ⟨BlockId.gregsBlock, 0⟩ ∧
    sampleArch.deserOk .gregs [] = false ∧
    processRegisterSet sampleArch .generation .gregs [] false hitState =
      .ok (hitState, ⟨BlockId.gregsBlock, 0⟩,
        [.regPayload .gregs [] ⟨BlockId.gregsBlock, 0⟩], none) :=
  ⟨by decide, by decide,
   (register_checks_only_on_miss_in_generation sampleArch).1 .generation .gregs
     [] false hitState ⟨BlockId.gregsBlock, 0⟩ (by decide)⟩

/-- A snapshot whose start-state serialized registers are both empty;
its end state is the (empty-register) end state of `sampleSnapshot`. -/
def emptyStartSnapshot : Snapshot :=
  { sampleSnapshot with registers := ⟨[], []⟩ }

/-- Counterexample to C8 as stated: a full generation run over
`[sampleSnapshot, emptyStartSnapshot]` succeeds even though the second
snapshot's start-state serialized registers are empty (and empty
payloads do not deserialize under `sampleArch`).  The first snapshot's
admitted empty end-state payloads populate the dedup tables, so the
second snapshot's empty start payloads hit the cache and the fatal
check is skipped. -/
theorem empty_start_registers_counterexample :
    emptyStartSnapshot.registers.gregs = [] ∧
    emptyStartSnapshot.registers.fpregs = [] ∧
    sampleArch.deserOk .gregs [] = false ∧
    isOkE (generateRelocatableSnaps sampleArch ⟨true⟩
      [sampleSnapshot, emptyStartSnapshot]) = true := by
  refine ⟨rfl, rfl, by decide, by decide⟩

/-- C8 (amended): in the generation pass, a register payload that
misses its kind's dedup table halts with a fatal assertion when it is
empty and emptiness is not allowed, or when it is nonempty and fails to
deserialize — in particular an empty or undeserializable start-state
payload halts unless an equal payload of the same kind was admitted
earlier in the pass (a dedup hit reuses the cached allocation with no
check).  An empty end-state payload (emptiness allowed) that misses the
table is accepted: a fresh register structure is allocated in the
kind's block, zero-initialized, recorded in the table and its Ref
returned (and referenced by the emitted Snap). -/
theorem register_state_checks_amended (A : ArchSpec) :
    (∀ (kk : RegKind) (bytes : ByteData) (s : TState),
      lookupRef (s.regMap kk) bytes = none →
      (bytes = [] ∨ A.deserOk kk bytes = false) →
      isOkE (processRegisterSet A .generation kk bytes false s) = false) ∧
    (∀ (kk : RegKind) (s : TState),
      lookupRef (s.regMap kk) [] = none →
      processRegisterSet A .generation kk [] true s =
        .ok (((s.allocIn (regBlockId kk) (A.regSize kk) (A.regAlign kk)).1).insertReg
            kk [] ((s.allocIn (regBlockId kk) (A.regSize kk) (A.regAlign kk)).2.1),
          (s.allocIn (regBlockId kk) (A.regSize kk) (A.regAlign kk)).2.1,
          [(s.allocIn (regBlockId kk) (A.regSize kk) (A.regAlign kk)).2.2,
           .regPayload kk [] ((s.allocIn (regBlockId kk) (A.regSize kk) (A.regAlign kk)).2.1)],
          some RegWrite.zeroFill)) := by
  constructor
  · intro kk bytes s hmiss hbad
    unfold processRegisterSet
    rcases ha : s.allocIn (regBlockId kk) (A.regSize kk) (A.regAlign kk)
      with ⟨s₁, r₁, e₁⟩
    rcases bytes with _ | ⟨b, t⟩
    · simp [hmiss, isOkE]
    · rcases hbad with hbad | hbad
      · exact absurd hbad (by simp)
      · simp [hmiss, hbad, isOkE]
  · intro kk s hmiss
    unfold processRegisterSet
    rw [hmiss]
    simp

/-- Witness for the amended C8: under `sampleArch`, from the initial
(empty-table) state, an empty start payload (`allow_empty = false`)
halts; a nonempty undeserializable payload cannot occur under
`sampleArch`, so the miss-halt is exhibited on the empty payload; and an
empty end-state payload (`allow_empty = true`) is accepted with a fresh
zero-filled gregs allocation. -/
theorem register_state_checks_amended_witness :
    lookupRef (initState.regMap .gregs) [] = none ∧
    isOkE (processRegisterSet sampleArch .generation .gregs [] false initState) = false ∧
    processRegisterSet sampleArch .generation .gregs [] true initState =
      .ok (((initState.allocIn (regBlockId .gregs) (sampleArch.regSize .gregs)
            (sampleArch.regAlign .gregs)).1).insertReg .gregs []
          ((initState.allocIn (regBlockId .gregs) (sampleArch.regSize .gregs)
            (sampleArch.regAlign .gregs)).2.1),
        (initState.allocIn (regBlockId .gregs) (sampleArch.regSize .gregs)
          (sampleArch.regAlign .gregs)).2.1,
        [(initState.allocIn (regBlockId .gregs) (sampleArch.regSize .gregs)
            (sampleArch.regAlign .gregs)).2.2,
         .regPayload .gregs []
           ((initState.allocIn (regBlockId .gregs) (sampleArch.regSize .gregs)
             (sampleArch.regAlign .gregs)).2.1)],
        some RegWrite.zeroFill) :=
  ⟨by decide,
   (register_state_checks_amended sampleArch).1 .gregs [] initState (by decide)
     (Or.inl rfl),
   (register_state_checks_amended sampleArch).2 .gregs initState (by decide)⟩

/-- C3: for every memory-bytes record processed in the generation pass:
if compression is enabled and all of the (nonempty) record's bytes are
equal, the emitted `SnapMemoryBytes` record carries the `kRepeating`
flag, the value of the record's first byte and the record's length as
size, and nothing is allocated at all — the state is unchanged, so in
particular no backing byte array appears in `byte_data_block` or
`page_data_block`, overriding page-alignment routing; otherwise the
payload is allocated (or deduplicated) through `processMemoryBytes` and
the emitted record's elements pointer is exactly the payload's Ref. -/
theorem repeating_byte_compression (opts : GenOptions) (mb : MemoryBytes)
    (ref : Ref) (s : TState) :
    (opts.compressRepeatingBytes = true → mb.byteValues ≠ [] →
      (∀ x ∈ mb.byteValues, x = mb.byteValues.headD 0) →
      processAllocatedMemoryBytes opts .generation mb ref s =
        (s, [], some ⟨mb.startAddress, kRepeating,
          .byteRun (mb.byteValues.headD 0) mb.numBytes⟩)) ∧
    ((opts.compressRepeatingBytes && isRepeatingByteRun mb.byteValues) = false →
      processAllocatedMemoryBytes opts .generation mb ref s =
        ((processMemoryBytes .generation mb s).1,
         (processMemoryBytes .generation mb s).2.2,
         some ⟨mb.startAddress, 0,
           .byteValues mb.numBytes ((processMemoryBytes .generation mb s).2.1)⟩)) := by
  constructor
  · intro hc hne hall
    have hrep : isRepeatingByteRun mb.byteValues = true := by
      rcases hv : mb.byteValues with _ | ⟨b, t⟩
      · exact absurd hv hne
      · simp only [isRepeatingByteRun]
        rw [List.all_eq_true]
        intro x hx
        have := hall x (by rw [hv]; exact List.mem_cons_of_mem b hx)
        rw [hv] at this
        simp only [List.headD_cons] at this
        simp [this]
    unfold processAllocatedMemoryBytes
    rw [if_pos (by rw [hc, hrep]; rfl)]
    rfl
  · intro hc
    unfold processAllocatedMemoryBytes
    rw [if_neg (by rw [hc]; simp)]
    rcases hmb : processMemoryBytes .generation mb s with ⟨s₁, r₁, L₁⟩
    simp

/-- Witness for C3: a repeating record is emitted inline with no state
change, and a non-repeating record is emitted with its payload's Ref. -/
theorem repeating_byte_compression_witness :
    processAllocatedMemoryBytes ⟨true⟩ .generation ⟨256, [9, 9, 9]⟩
        ⟨BlockId.memoryBytesBlock, 0⟩ initState =
      (initState, [], some ⟨256, kRepeating, .byteRun 9 3⟩) ∧
    processAllocatedMemoryBytes ⟨true⟩ .generation ⟨256, [1, 2, 3]⟩
        ⟨BlockId.memoryBytesBlock, 0⟩ initState =
      ((processMemoryBytes .generation ⟨256, [1, 2, 3]⟩ initState).1,
       (processMemoryBytes .generation ⟨256, [1, 2, 3]⟩ initState).2.2,
       some ⟨256, 0, .byteValues 3
         ((processMemoryBytes .generation ⟨256, [1, 2, 3]⟩ initState).2.1)⟩) :=
  ⟨(repeating_byte_compression ⟨true⟩ ⟨256, [9, 9, 9]⟩
      ⟨BlockId.memoryBytesBlock, 0⟩ initState).1 rfl (by decide) (by decide),
   (repeating_byte_compression ⟨true⟩ ⟨256, [1, 2, 3]⟩
      ⟨BlockId.memoryBytesBlock, 0⟩ initState).2 (by decide)⟩

/-- C4 (amended): for a memory-bytes record (not emitted as repeating)
whose byte content misses the dedup table, the payload is allocated in
`page_data_block` with page-size alignment exactly when both its start
address and its length are multiples of the runner page size, and in
`byte_data_block` with 8-byte alignment otherwise; a record whose
content hits the dedup table allocates nothing and reuses the cached
Ref, wherever its first occurrence placed it. -/
theorem page_alignment_routing_amended (p : PassType) (mb : MemoryBytes)
    (s : TState) :
    (lookupRef s.byteDataRefMap mb.byteValues = none →
      ((mb.startAddress % kPageSize = 0 ∧ mb.numBytes % kPageSize = 0) →
        processMemoryBytes p mb s =
          (((s.allocIn .pageDataBlock mb.byteValues.length kPageSize).1).insertByteData
              mb.byteValues ((s.allocIn .pageDataBlock mb.byteValues.length kPageSize).2.1),
           (s.allocIn .pageDataBlock mb.byteValues.length kPageSize).2.1,
           [(s.allocIn .pageDataBlock mb.byteValues.length kPageSize).2.2,
            .mbPayload mb.byteValues
              ((s.allocIn .pageDataBlock mb.byteValues.length kPageSize).2.1)])) ∧
      (¬(mb.startAddress % kPageSize = 0 ∧ mb.numBytes % kPageSize = 0) →
        processMemoryBytes p mb s =
          (((s.allocIn .byteDataBlock mb.byteValues.length 8).1).insertByteData
              mb.byteValues ((s.allocIn .byteDataBlock mb.byteValues.length 8).2.1),
           (s.allocIn .byteDataBlock mb.byteValues.length 8).2.1,
           [(s.allocIn .byteDataBlock mb.byteValues.length 8).2.2,
            .mbPayload mb.byteValues
              ((s.allocIn .byteDataBlock mb.byteValues.length 8).2.1)]))) ∧
    (∀ r, lookupRef s.byteDataRefMap mb.byteValues = some r →
      processMemoryBytes p mb s = (s, r, [.mbPayload mb.byteValues r])) := by
  constructor
  · intro hmiss
    constructor
    · intro hpa
      unfold processMemoryBytes
      rw [hmiss]
      rw [if_pos (by simp [isPageAligned, hpa.1, hpa.2])]
    · intro hpa
      unfold processMemoryBytes
      rw [hmiss]
      rw [if_neg (by
        simp only [isPageAligned, Bool.and_eq_true, decide_eq_true_eq]
        exact fun hcon => hpa hcon)]
  · intro r hhit
    unfold processMemoryBytes
    rw [hhit]

/-- Witness for the amended C4: a fresh non-page-aligned payload goes to
`byte_data_block` with 8-byte alignment. -/
theorem page_alignment_routing_amended_witness :
    lookupRef initState.byteDataRefMap [7] = none ∧
    ¬((0 : Nat) % kPageSize = 0 ∧ (1 : Nat) % kPageSize = 0) ∧
    processMemoryBytes .generation ⟨0, [7]⟩ initState =
      (((initState.allocIn .byteDataBlock 1 8).1).insertByteData [7]
          ((initState.allocIn .byteDataBlock 1 8).2.1),
       (initState.allocIn .byteDataBlock 1 8).2.1,
       [(initState.allocIn .byteDataBlock 1 8).2.2,
        .mbPayload [7] ((initState.allocIn .byteDataBlock 1 8).2.1)]) :=
  ⟨rfl, by decide,
   ((page_alignment_routing_amended .generation ⟨0, [7]⟩ initState).1
     (by decide)).2 (by decide)⟩

/-- A page-sized payload (4096 identical bytes; compression is disabled
in the counterexample run, so it is not emitted as repeating). -/
def pageSizedPayload : ByteData := List.replicate 4096 144

/-- The payload's first occurrence, at a non-page-aligned address. -/
def firstUnaligned : MemoryBytes := ⟨8, pageSizedPayload⟩

/-- The payload's second occurrence, page-aligned in address and length. -/
def secondAligned : MemoryBytes := ⟨4096, pageSizedPayload⟩

/-- A dedup hit in `ProcessMemoryBytes` returns the cached Ref with no
state change. -/
theorem processMemoryBytes_hit (p : PassType) (mb : MemoryBytes) (s : TState)
    (r : Ref) (hhit : lookupRef s.byteDataRefMap mb.byteValues = some r) :
    processMemoryBytes p mb s = (s, r, [.mbPayload mb.byteValues r]) := by
  unfold processMemoryBytes
  rw [hhit]

/-- A dedup miss of a payload that is not page-aligned allocates it in
`byte_data_block` with 8-byte alignment. -/
theorem processMemoryBytes_miss_unaligned (p : PassType) (mb : MemoryBytes)
    (s : TState) (hmiss : lookupRef s.byteDataRefMap mb.byteValues = none)
    (hcond : (isPageAligned mb.startAddress && isPageAligned mb.numBytes) = false) :
    processMemoryBytes p mb s =
      (((s.allocIn .byteDataBlock mb.byteValues.length 8).1).insertByteData
          mb.byteValues ((s.allocIn .byteDataBlock mb.byteValues.length 8).2.1),
       (s.allocIn .byteDataBlock mb.byteValues.length 8).2.1,
       [(s.allocIn .byteDataBlock mb.byteValues.length 8).2.2,
        .mbPayload mb.byteValues
          ((s.allocIn .byteDataBlock mb.byteValues.length 8).2.1)]) := by
  unfold processMemoryBytes
  rw [hmiss, if_neg (by simp [hcond])]

/-- With compression not applicable, `ProcessAllocated` (MemoryBytes)
defers to `processMemoryBytes` and emits a plain byte-array record. -/
theorem processAllocatedMemoryBytes_nocompress (opts : GenOptions)
    (p : PassType) (mb : MemoryBytes) (ref : Ref) (s : TState)
    (hc : (opts.compressRepeatingBytes && isRepeatingByteRun mb.byteValues) = false) :
    processAllocatedMemoryBytes opts p mb ref s =
      ((processMemoryBytes p mb s).1, (processMemoryBytes p mb s).2.2,
       if p = .generation then
         some ⟨mb.startAddress, 0,
           .byteValues mb.numBytes ((processMemoryBytes p mb s).2.1)⟩
       else none) := by
  unfold processAllocatedMemoryBytes
  rw [if_neg (by simp [hc])]

/-- Counterexample to C4 as stated: `secondAligned` is page-aligned in
both start address and length and is not emitted as a repeating record
(compression disabled), yet — because its byte content equals
`firstUnaligned`'s, which was first allocated non-page-aligned — its
payload resolves to the `byte_data_block` allocation and nothing is ever
placed in `page_data_block`.  The dedup table ignores alignment (spec
§9's preserved precondition). -/
theorem page_alignment_routing_counterexample :
    secondAligned.startAddress % kPageSize = 0 ∧
    secondAligned.numBytes % kPageSize = 0 ∧
    (processAllocatedMemoryBytes ⟨false⟩ .generation secondAligned
        ⟨BlockId.memoryBytesBlock, 24⟩
        ((processAllocatedMemoryBytes ⟨false⟩ .generation firstUnaligned
          ⟨BlockId.memoryBytesBlock, 0⟩ initState).1)).2.2 =
      some ⟨4096, 0, .byteValues 4096 ⟨BlockId.byteDataBlock, 0⟩⟩ ∧
    ((processAllocatedMemoryBytes ⟨false⟩ .generation secondAligned
        ⟨BlockId.memoryBytesBlock, 24⟩
        ((processAllocatedMemoryBytes ⟨false⟩ .generation firstUnaligned
          ⟨BlockId.memoryBytesBlock, 0⟩ initState).1)).1).pageDataBlock.size = 0 := by
  have hlen : secondAligned.numBytes = 4096 := by
    show (List.replicate 4096 144).length = 4096
    exact List.length_replicate _ _
  have h8 : isPageAligned firstUnaligned.startAddress = false := by decide
  have hcond1 : (isPageAligned firstUnaligned.startAddress &&
      isPageAligned firstUnaligned.numBytes) = false := by
    rw [h8]
    rfl
  have hm1 := processMemoryBytes_miss_unaligned .generation firstUnaligned
    initState rfl hcond1
  have hr1 : (initState.allocIn .byteDataBlock firstUnaligned.byteValues.length 8).2.1 =
      ⟨BlockId.byteDataBlock, 0⟩ := rfl
  have hp1 := processAllocatedMemoryBytes_nocompress ⟨false⟩ .generation
    firstUnaligned ⟨BlockId.memoryBytesBlock, 0⟩ initState rfl
  rw [hm1] at hp1
  simp only at hp1
  rw [hp1]
  simp only
  have hhit : lookupRef
      (((initState.allocIn .byteDataBlock firstUnaligned.byteValues.length 8).1).insertByteData
        firstUnaligned.byteValues
        ((initState.allocIn .byteDataBlock firstUnaligned.byteValues.length 8).2.1)).byteDataRefMap
      secondAligned.byteValues =
      some ((initState.allocIn .byteDataBlock firstUnaligned.byteValues.length 8).2.1) :=
    lookupRef_cons_self _ _ _
  have hm2 := processMemoryBytes_hit .generation secondAligned _ _ hhit
  have hp2 := processAllocatedMemoryBytes_nocompress ⟨false⟩ .generation
    secondAligned ⟨BlockId.memoryBytesBlock, 24⟩
    (((initState.allocIn .byteDataBlock firstUnaligned.byteValues.length 8).1).insertByteData
      firstUnaligned.byteValues
      ((initState.allocIn .byteDataBlock firstUnaligned.byteValues.length 8).2.1)) rfl
  rw [hm2] at hp2
  simp only at hp2
  rw [hp2]
  simp only
  refine ⟨by decide, by rw [hlen]; decide, ?_, ?_⟩
  · rw [hr1, hlen]
    simp [secondAligned]
  · rw [show (((initState.allocIn .byteDataBlock firstUnaligned.byteValues.length 8).1).insertByteData
        firstUnaligned.byteValues
        ((initState.allocIn .byteDataBlock firstUnaligned.byteValues.length 8).2.1)).pageDataBlock =
      initState.pageDataBlock from rfl]
    rfl

end Silifuzz
